import Mathlib

/-!
Verification of the BeyondUID remote-configuration update checker
(`BeyondUID/beyonduid_server_update_check/`): a shallow embedding in Lean of
the data model (JSON-like snapshot values), the comparison normalizer
(`utils.normalize_data_for_comparison` together with the relevant parts of
CPython's `urllib.parse`), the PKCS7 unpadding codec, the versioned snapshot
store (`update_checker.save_config`), the error classifier and notification
composer (`__init__.NotificationManager`), and the per-tick orchestration
(`check_remote_config_updates`), followed by theorems settling the frozen
specification claims.

Modelling conventions:
- Python values flowing through the checker are modelled by the `Json`
  inductive (floats are not modelled; the configs under test carry strings,
  integers, booleans, lists and dicts).
- Python dicts are insertion-ordered association lists with unique keys.
- Python exceptions are modelled with `Except String`.
- Machine-level concerns (HTTP, asyncio, file I/O) appear as oracle inputs:
  a fetch either produces a decoded value or fails, exactly matching the
  `None` results of `_fetch_single_config`.
-/

/-! ### JSON-like snapshot values -/

inductive Json where
  | null : Json
  | bool (b : Bool) : Json
  | num (n : Int) : Json
  | str (s : String) : Json
  | arr (xs : List Json) : Json
  | obj (kvs : List (String × Json)) : Json

mutual

def jsonBEq : Json → Json → Bool
  | .null, .null => true
  | .bool a, .bool b => a == b
  | .num a, .num b => a == b
  | .str a, .str b => a == b
  | .arr xs, .arr ys => jsonBEqList xs ys
  | .obj xs, .obj ys => jsonBEqObj xs ys
  | _, _ => false
termination_by structural x => x

def jsonBEqList : List Json → List Json → Bool
  | [], [] => true
  | x :: xs, y :: ys => jsonBEq x y && jsonBEqList xs ys
  | _, _ => false
termination_by structural x => x

def jsonBEqObj : List (String × Json) → List (String × Json) → Bool
  | [], [] => true
  | (k, v) :: xs, (k', w) :: ys => k == k' && jsonBEq v w && jsonBEqObj xs ys
  | _, _ => false
termination_by structural x => x

end

mutual

theorem jsonBEq_iff : ∀ a b, jsonBEq a b = true ↔ a = b
  | .null, b => by cases b <;> simp [jsonBEq]
  | .bool x, b => by cases b <;> simp [jsonBEq]
  | .num x, b => by cases b <;> simp [jsonBEq]
  | .str x, b => by cases b <;> simp [jsonBEq]
  | .arr xs, b => by cases b <;> simp [jsonBEq, jsonBEqList_iff xs]
  | .obj xs, b => by cases b <;> simp [jsonBEq, jsonBEqObj_iff xs]
termination_by structural x => x

theorem jsonBEqList_iff : ∀ a b, jsonBEqList a b = true ↔ a = b
  | [], [] => by simp [jsonBEqList]
  | [], _ :: _ => by simp [jsonBEqList]
  | _ :: _, [] => by simp [jsonBEqList]
  | x :: xs, y :: ys => by
      simp [jsonBEqList, jsonBEq_iff x y, jsonBEqList_iff xs ys]
termination_by structural x => x

theorem jsonBEqObj_iff : ∀ a b, jsonBEqObj a b = true ↔ a = b
  | [], [] => by simp [jsonBEqObj]
  | [], _ :: _ => by simp [jsonBEqObj]
  | _ :: _, [] => by simp [jsonBEqObj]
  | (k, v) :: xs, (k', w) :: ys => by
      simp [jsonBEqObj, jsonBEq_iff v w, jsonBEqObj_iff xs ys, Prod.ext_iff]
termination_by structural x => x

end

instance : DecidableEq Json := fun a b => decidable_of_iff _ (jsonBEq_iff a b)

/-! A size measure used to supply fuel to the Python `==` model. -/

mutual

def jsize : Json → Nat
  | .arr xs => 1 + jsizeList xs
  | .obj kvs => 1 + jsizeObj kvs
  | _ => 1
termination_by structural x => x

def jsizeList : List Json → Nat
  | [] => 1
  | x :: xs => 1 + jsize x + jsizeList xs
termination_by structural x => x

def jsizeObj : List (String × Json) → Nat
  | [] => 1
  | (_, v) :: xs => 1 + jsize v + jsizeObj xs
termination_by structural x => x

end

/-!
Python `==` on JSON-like values: `True == 1`, `False == 0`, and dict
comparison is order-insensitive (`a == b` iff same length and every key of
`a` maps to an equal value in `b`).  Fuel makes the mutual recursion
structural so that the function evaluates inside the kernel; `pyEq` supplies
fuel that dominates the recursion depth.
-/
mutual

def pyEqF : Nat → Json → Json → Bool
  | 0, _, _ => false
  | _ + 1, .null, .null => true
  | _ + 1, .bool a, .bool b => a == b
  | _ + 1, .bool a, .num n => (if a then (1 : Int) else 0) == n
  | _ + 1, .num n, .bool a => n == (if a then (1 : Int) else 0)
  | _ + 1, .num a, .num b => a == b
  | _ + 1, .str a, .str b => a == b
  | f + 1, .arr a, .arr b => pyEqListF f a b
  | f + 1, .obj a, .obj b => a.length == b.length && pyEqEntriesF f a b
  | _ + 1, _, _ => false
termination_by structural f => f

def pyEqListF : Nat → List Json → List Json → Bool
  | 0, _, _ => false
  | _ + 1, [], [] => true
  | f + 1, x :: xs, y :: ys => pyEqF f x y && pyEqListF f xs ys
  | _ + 1, _, _ => false
termination_by structural f => f

def pyEqEntriesF : Nat → List (String × Json) → List (String × Json) → Bool
  | 0, _, _ => false
  | _ + 1, [], _ => true
  | f + 1, (k, v) :: rest, b => pyFindEqF f k v b && pyEqEntriesF f rest b
termination_by structural f => f

def pyFindEqF : Nat → String → Json → List (String × Json) → Bool
  | 0, _, _, _ => false
  | _ + 1, _, _, [] => false
  | f + 1, k, v, (k', w) :: rest => if k' == k then pyEqF f v w else pyFindEqF f k v rest
termination_by structural f => f

end

/-- Python `==` on two snapshot values (fuel large enough never to run out). -/
def pyEq (a b : Json) : Bool := pyEqF (jsize a + jsize b) a b

/-- Association-list lookup, modelling Python `d[k]` / `d.get(k)`. -/
def alookup (l : List (String × Json)) (k : String) : Option Json :=
  match l with
  | [] => none
  | (k', v) :: rest => if k' == k then some v else alookup rest k

/-- Key membership, modelling Python `k in d`. -/
def akeyMem (l : List (String × Json)) (k : String) : Bool :=
  match l with
  | [] => false
  | (k', _) :: rest => k' == k || akeyMem rest k

/-! ### CPython `urllib.parse` (3.11/3.12 line), as used by
`strip_url_query_params`.

Transcribed from `urllib/parse.py`: `urlsplit` (with the WHATWG lstrip,
tab/CR/LF removal, scheme splitting, netloc splitting and the bracket
validation), `_splitparams`, and `urlunsplit`.  `_checknetloc` only raises
for non-ASCII netlocs that change under NFKC normalization; NFKC itself is
not modelled, so the model treats `_checknetloc` as passing.  All checks the
model performs are pure functions of the netloc, which is what the
idempotence proofs rely on. -/

def isC0ControlOrSpace (c : Char) : Bool := c.val ≤ 0x20

def isUnsafeUrlByte (c : Char) : Bool := c == '\t' || c == '\r' || c == '\n'

/-- `url.lstrip(_WHATWG_C0_CONTROL_OR_SPACE)` then removal of tab/CR/LF. -/
def sanitizeUrl (l : List Char) : List Char :=
  (l.dropWhile isC0ControlOrSpace).filter (fun c => !isUnsafeUrlByte c)

def isSchemeChar (c : Char) : Bool :=
  c.isAlpha || c.isDigit || c == '+' || c == '-' || c == '.'

/-- Python `str.isascii` on a single character. -/
def isAsciiChar (c : Char) : Bool := c.toNat ≤ 127

/-- The scheme-splitting step of `urlsplit`: find the first `:`; if the part
before it is a nonempty run of scheme characters starting with an ASCII
letter, it is the scheme (lower-cased) and is consumed together with the
colon. -/
def schemeSplit (url : List Char) : List Char × List Char :=
  if url.contains ':' then
    let pre := url.takeWhile (· != ':')
    match pre with
    | [] => ([], url)
    | c :: _ =>
      if isAsciiChar c && c.isAlpha && pre.all isSchemeChar then
        (pre.map Char.toLower, url.drop (pre.length + 1))
      else ([], url)
  else ([], url)

def isNetlocDelim (c : Char) : Bool := c == '/' || c == '?' || c == '#'

def isHexDigitChar (c : Char) : Bool :=
  c.isDigit || (('a' ≤ c && c ≤ 'f') || ('A' ≤ c && c ≤ 'F'))

/-- Split a list at the first occurrence of `c` (Python `split(c, 1)` when
`c` occurs). -/
def splitFirst (c : Char) (l : List Char) : Option (List Char × List Char) :=
  if l.contains c then some (l.takeWhile (· != c), (l.dropWhile (· != c)).drop 1)
  else none

/-- Split a list at the last occurrence of `c` (Python `rfind`). -/
def splitLast (c : Char) (l : List Char) : Option (List Char × List Char) :=
  match splitFirst c l.reverse with
  | some (a, b) => some (b.reverse, a.reverse)
  | none => none

/-- One dotted-quad octet of `ipaddress.IPv4Address`: decimal digits only, at
most three of them, no leading zero, value at most 255. -/
def isIpv4Octet (l : List Char) : Bool :=
  l.length ≥ 1 && l.length ≤ 3 && l.all Char.isDigit &&
    (l.length == 1 || l.take 1 != ['0']) &&
    (String.toNat? (String.mk l)).elim false (· ≤ 255)

/-- `ipaddress.IPv4Address` acceptance (dotted quad). -/
def isIpv4Address (l : List Char) : Bool :=
  let parts := (String.mk l).split (· = '.') |>.map String.data
  parts.length == 4 && parts.all isIpv4Octet

/-- One hextet of `ipaddress.IPv6Address`: one to four hex digits. -/
def isIpv6Hextet (l : List Char) : Bool :=
  l.length ≥ 1 && l.length ≤ 4 && l.all isHexDigitChar

/-- Core of `ipaddress.IPv6Address._ip_int_from_string` on the address part
(without zone), modelling acceptance: split on `:`, need at least three
parts, an optional trailing embedded IPv4 counting as two hextets, at most
one `::` compression, and full eight hextets when uncompressed. -/
def isIpv6Core (l : List Char) : Bool :=
  let parts := (String.mk l).split (· = ':') |>.map String.data
  if parts.length < 3 then false
  else
    let lastHasDot := (parts.getLast?.elim false (·.contains '.'))
    let parts := if lastHasDot then
        if isIpv4Address (parts.getLast?.getD []) then
          parts.dropLast ++ [['0'], ['0']]
        else []
      else parts
    if parts == [] then false
    else if parts.length > 9 then false
    else
      let inner := (parts.drop 1).dropLast
      let emptyInner := inner.countP (· == ([] : List Char))
      if emptyInner > 1 then false
      else if emptyInner == 1 then
        let skipIdx := (parts.drop 1).findIdx (· == ([] : List Char)) + 1
        let partsHi0 := skipIdx
        let partsLo0 := parts.length - skipIdx - 1
        let headEmpty := parts.head?.elim false (· == ([] : List Char))
        let lastEmpty := parts.getLast?.elim false (· == ([] : List Char))
        let partsHi := if headEmpty then partsHi0 - 1 else partsHi0
        let partsLo := if lastEmpty then partsLo0 - 1 else partsLo0
        if headEmpty && partsHi0 - 1 ≠ 0 then false
        else if lastEmpty && partsLo0 - 1 ≠ 0 then false
        else if 8 - (partsHi + partsLo) < 1 then false
        else (parts.filter (· != ([] : List Char))).all isIpv6Hextet
      else
        parts.length == 8 && parts.all isIpv6Hextet

/-- `ipaddress.IPv6Address` acceptance including an optional `%zone` suffix
(nonempty zone, no `%` inside). -/
def isIpv6Address (l : List Char) : Bool :=
  match splitFirst '%' l with
  | some (addr, zone) => zone.length ≥ 1 && !zone.contains '%' && isIpv6Core addr
  | none => isIpv6Core l

/-- `_check_bracketed_host` as a pure acceptance function (`true` = no
`ValueError`).  `v...` hosts must match `v[hexdigits]+\..+`; otherwise the
host must parse as an IP address and not be IPv4. -/
def checkBracketedHost (h : List Char) : Bool :=
  if h.take 1 == ['v'] then
    match h with
    | _ :: rest =>
      let hexRun := rest.takeWhile isHexDigitChar
      let afterHex := rest.drop hexRun.length
      hexRun.length ≥ 1 && afterHex.take 1 == ['.'] && afterHex.length ≥ 2
    | [] => false
  else if isIpv4Address h then false
  else isIpv6Address h

/-- `netloc.partition('[')[2].partition(']')[0]`. -/
def bracketedHostOf (nl : List Char) : List Char :=
  (((nl.dropWhile (· != '[')).drop 1).takeWhile (· != ']'))

/-- The `ValueError`-raising validation that `urlsplit` performs on a netloc:
mismatched brackets, and bracketed-host validation.  (`_checknetloc` is
modelled as passing; see the section comment.) -/
def netlocChecks (nl : List Char) : Except String Unit :=
  if (nl.contains '[' && !nl.contains ']') || (nl.contains ']' && !nl.contains '[') then
    .error "Invalid IPv6 URL"
  else if nl.contains '[' && nl.contains ']' then
    if checkBracketedHost (bracketedHostOf nl) then .ok () else .error "invalid bracketed host"
  else .ok ()

structure SplitUrl where
  scheme : List Char
  netloc : List Char
  path : List Char
  query : List Char
  fragment : List Char

/-- The netloc-splitting step of `urlsplit`: when the remainder starts with
`//`, cut the netloc at the first of `/?#` and validate it. -/
def netlocSplit (url2 : List Char) : Except String (List Char × List Char) :=
  if url2.take 2 == ['/', '/'] then
    let nl := (url2.drop 2).takeWhile (fun c => !isNetlocDelim c)
    let rest := (url2.drop 2).dropWhile (fun c => !isNetlocDelim c)
    match netlocChecks nl with
    | .error e => .error e
    | .ok _ => .ok (nl, rest)
  else .ok ([], url2)

/-- The fragment/query-splitting tail of `urlsplit` (`allow_fragments=True`). -/
def urlsplitStage2 (scheme : List Char) (nlres : Except String (List Char × List Char)) :
    Except String SplitUrl :=
  match nlres with
  | .error e => .error e
  | .ok (netloc, url3) =>
    let fragment := (url3.dropWhile (· != '#')).drop 1
    let url4 := url3.takeWhile (· != '#')
    let query := (url4.dropWhile (· != '?')).drop 1
    let url5 := url4.takeWhile (· != '?')
    .ok ⟨scheme, netloc, url5, query, fragment⟩

/-- `urllib.parse.urlsplit` with `allow_fragments=True` on character lists. -/
def urlsplitModel (url0 : List Char) : Except String SplitUrl :=
  let url1 := sanitizeUrl url0
  let (scheme, url2) := schemeSplit url1
  urlsplitStage2 scheme (netlocSplit url2)

/-- `_splitparams` (only invoked by `urlparse` when the path contains `;`). -/
def splitparamsModel (p : List Char) : List Char × List Char :=
  match splitLast '/' p with
  | some (a, b) =>
    match splitFirst ';' b with
    | some (b1, b2) => (a ++ '/' :: b1, b2)
    | none => (p, [])
  | none =>
    match splitFirst ';' p with
    | some (p1, p2) => (p1, p2)
    | none => (p.dropLast, p)

def usesParams : List String :=
  ["", "ftp", "hdl", "prospero", "http", "imap",
   "https", "shttp", "rtsp", "rtsps", "rtspu", "sip",
   "sips", "mms", "sftp", "tel"]

def usesNetloc : List String :=
  ["", "ftp", "http", "gopher", "nntp", "telnet",
   "imap", "wais", "file", "mms", "https", "shttp",
   "snews", "prospero", "rtsp", "rtsps", "rtspu", "rsync",
   "svn", "svn+ssh", "sftp", "nfs", "git", "git+ssh",
   "ws", "wss"]

/-- The params-splitting step of `urlparse` applied to the path returned by
`urlsplit`. -/
def urlparseParams (scheme path : List Char) : List Char × List Char :=
  if usesParams.contains (String.mk scheme) && path.contains ';' then
    splitparamsModel path
  else (path, [])

/-- `urllib.parse.urlunsplit`. -/
def urlunsplitModel (scheme netloc url query fragment : List Char) : List Char :=
  let url :=
    if netloc != [] ||
       (scheme != [] && usesNetloc.contains (String.mk scheme) && url.take 2 != ['/', '/']) then
      let url := if url != [] && url.take 1 != ['/'] then '/' :: url else url
      '/' :: '/' :: (netloc ++ url)
    else url
  let url := if scheme != [] then scheme ++ ':' :: url else url
  let url := if query != [] then url ++ '?' :: query else url
  if fragment != [] then url ++ '#' :: fragment else url

/-- `utils.strip_url_query_params` on character lists: parse, drop params,
rebuild with empty params/query/fragment. -/
def stripUrlQueryParamsL (l : List Char) : Except String (List Char) :=
  if l == [] then .ok l
  else
    match urlsplitModel l with
    | .error e => .error e
    | .ok s => .ok (urlunsplitModel s.scheme s.netloc (urlparseParams s.scheme s.path).1 [] [])

/-- Python `s.startswith(pre)`. -/
def pyStartsWith (l pre : List Char) : Bool := l.take pre.length == pre

def httpHead : List Char := ['h', 't', 't', 'p', ':', '/', '/']

def httpsHead : List Char := ['h', 't', 't', 'p', 's', ':', '/', '/']

/-- `utils.strip_url_query_params` on strings (`if not url` guard included;
the `isinstance` guard is vacuous for string inputs). -/
def strip_url_query_params (s : String) : Except String String :=
  (stripUrlQueryParamsL s.data).map String.mk

/-! `utils.normalize_data_for_comparison`: recurse into dicts and lists, and
strip query params from strings that start with `http://` or `https://`. -/

mutual

def normJson : Json → Except String Json
  | .null => pure .null
  | .bool b => pure (.bool b)
  | .num n => pure (.num n)
  | .str s =>
    if pyStartsWith s.data httpHead || pyStartsWith s.data httpsHead then do
      pure (.str (← strip_url_query_params s))
    else pure (.str s)
  | .arr xs => do pure (.arr (← normArr xs))
  | .obj kvs => do pure (.obj (← normObj kvs))
termination_by structural x => x

def normArr : List Json → Except String (List Json)
  | [] => pure []
  | x :: xs => do pure ((← normJson x) :: (← normArr xs))
termination_by structural x => x

def normObj : List (String × Json) → Except String (List (String × Json))
  | [] => pure []
  | (k, v) :: kvs => do pure ((k, ← normJson v) :: (← normObj kvs))
termination_by structural x => x

end

/-! ### List helper lemmas for the normalization proofs -/

theorem takeWhile_append_all {p : Char → Bool} (a b : List Char)
    (h : ∀ c ∈ a, p c = true) : (a ++ b).takeWhile p = a ++ b.takeWhile p := by
  induction a with
  | nil => simp
  | cons x xs ih =>
    have hx := h x (by simp)
    simp [List.takeWhile, hx]
    exact ih fun c hc => h c (by simp [hc])

theorem dropWhile_append_all {p : Char → Bool} (a b : List Char)
    (h : ∀ c ∈ a, p c = true) : (a ++ b).dropWhile p = b.dropWhile p := by
  induction a with
  | nil => simp
  | cons x xs ih =>
    have hx := h x (by simp)
    simp [List.dropWhile, hx]
    exact ih fun c hc => h c (by simp [hc])

theorem takeWhile_eq_self {p : Char → Bool} (l : List Char)
    (h : ∀ c ∈ l, p c = true) : l.takeWhile p = l := by
  have := takeWhile_append_all (p := p) l [] h
  simpa using this

theorem dropWhile_eq_nil_all {p : Char → Bool} (l : List Char)
    (h : ∀ c ∈ l, p c = true) : l.dropWhile p = [] := by
  have := dropWhile_append_all (p := p) l [] h
  simpa using this

theorem dropWhile_cons_false {p : Char → Bool} {x : Char} {l : List Char}
    (h : p x = false) : (x :: l).dropWhile p = x :: l := by
  simp [List.dropWhile, h]

theorem mem_of_takeWhile {p : Char → Bool} {x : Char} {l : List Char}
    (h : x ∈ l.takeWhile p) : x ∈ l ∧ p x = true := by
  induction l with
  | nil => simp [List.takeWhile] at h
  | cons y ys ih =>
    by_cases hy : p y
    · simp [List.takeWhile, hy] at h
      rcases h with h | h
      · subst h; exact ⟨by simp, hy⟩
      · rcases ih h with ⟨h1, h2⟩; exact ⟨by simp [h1], h2⟩
    · simp [List.takeWhile, Bool.of_not_eq_true hy] at h

theorem takeWhile_nil_dropWhile {p : Char → Bool} {l : List Char}
    (h : l.takeWhile p = []) : l.dropWhile p = l := by
  cases l with
  | nil => simp
  | cons x xs =>
    by_cases hx : p x
    · simp [List.takeWhile, hx] at h
    · exact dropWhile_cons_false (Bool.of_not_eq_true hx)

theorem mem_filter_keep {p : Char → Bool} {x : Char} {l : List Char}
    (h : x ∈ l.filter p) : x ∈ l ∧ p x = true := by
  simpa using List.mem_filter.mp h

theorem filter_eq_self_all {p : Char → Bool} (l : List Char)
    (h : ∀ c ∈ l, p c = true) : l.filter p = l :=
  List.filter_eq_self.mpr h

/-- Prefix relation used to carry facts along the successive cuts of the
parser. -/
def PfxOf (a b : List Char) : Prop := ∃ t, b = a ++ t

theorem pfxOf_refl (a : List Char) : PfxOf a a := ⟨[], by simp⟩

theorem pfxOf_trans {a b c : List Char} (h1 : PfxOf a b) (h2 : PfxOf b c) :
    PfxOf a c := by
  obtain ⟨t1, rfl⟩ := h1
  obtain ⟨t2, rfl⟩ := h2
  exact ⟨t1 ++ t2, by simp⟩

theorem pfxOf_takeWhile {p : Char → Bool} (l : List Char) :
    PfxOf (l.takeWhile p) l := ⟨l.dropWhile p, (List.takeWhile_append_dropWhile p l).symm⟩

theorem pfxOf_mem {a b : List Char} {x : Char} (h : PfxOf a b) (hx : x ∈ a) :
    x ∈ b := by
  obtain ⟨t, rfl⟩ := h
  simp [hx]

theorem pfxOf_take2 {a b : List Char} (h : PfxOf a b)
    (h2 : a.take 2 = ['/', '/']) : b.take 2 = ['/', '/'] := by
  obtain ⟨t, rfl⟩ := h
  match a, h2 with
  | x :: y :: rest, h2 =>
    simp [List.take] at h2 ⊢
    exact ⟨h2.1, h2.2⟩

theorem contains_to_dropWhile (c : Char) (l : List Char)
    (h : l.contains c = true) :
    ∃ tail, l.dropWhile (· != c) = c :: tail := by
  induction l with
  | nil => simp at h
  | cons x xs ih =>
    by_cases hx : x = c
    · subst hx
      exact ⟨xs, by simp [List.dropWhile]⟩
    · have hx2 : (x != c) = true := by simp [hx]
      have h' : xs.contains c = true := by
        simp [List.contains_cons] at h
        rcases h with h | h
        · exact (hx h.symm).elim
        · simpa using h
      obtain ⟨tail, htail⟩ := ih h'
      exact ⟨tail, by simp [List.dropWhile, hx2, htail]⟩

theorem contains_false_of_all {c : Char} {l : List Char}
    (h : ∀ x ∈ l, (x != c) = true) : l.contains c = false := by
  cases hc : l.contains c
  · rfl
  · exfalso
    have hm : c ∈ l := by simpa using hc
    have := h c hm
    simp at this

theorem splitFirst_none {c : Char} {l : List Char}
    (h : l.contains c = false) : splitFirst c l = none := by
  unfold splitFirst
  simp only [h]
  simp

theorem splitFirst_isSome {c : Char} {l : List Char}
    (h : l.contains c = true) :
    splitFirst c l = some (l.takeWhile (· != c), (l.dropWhile (· != c)).drop 1) := by
  unfold splitFirst
  simp only [h]
  simp

theorem splitFirst_decomp {c : Char} {l a b : List Char}
    (h : splitFirst c l = some (a, b)) :
    l = a ++ c :: b ∧ (∀ x ∈ a, (x != c) = true) := by
  cases hc : l.contains c with
  | false =>
    rw [splitFirst_none hc] at h
    simp at h
  | true =>
    rw [splitFirst_isSome hc] at h
    simp at h
    obtain ⟨h1, h2⟩ := h
    obtain ⟨tail, htail⟩ := contains_to_dropWhile c l hc
    have hb : b = tail := by
      rw [← h2, htail]
      rfl
    constructor
    · conv_lhs => rw [← List.takeWhile_append_dropWhile (· != c) l]
      rw [htail, h1, hb]
    · intro x hx
      rw [← h1] at hx
      exact (mem_of_takeWhile hx).2

theorem splitLast_append (c : Char) (a b : List Char)
    (hb : ∀ x ∈ b, (x != c) = true) : splitLast c (a ++ c :: b) = some (a, b) := by
  unfold splitLast
  have hrev : (a ++ c :: b).reverse = b.reverse ++ c :: a.reverse := by simp
  have hcont : (a ++ c :: b).reverse.contains c = true := by
    simp [List.contains_cons]
  rw [hrev] at hcont ⊢
  rw [splitFirst_isSome hcont]
  have hbrev : ∀ x ∈ b.reverse, (x != c) = true := fun x hx => hb x (by simpa using hx)
  have h1 : (b.reverse ++ c :: a.reverse).takeWhile (· != c) = b.reverse := by
    rw [takeWhile_append_all _ _ hbrev]
    simp [List.takeWhile]
  have h2 : (b.reverse ++ c :: a.reverse).dropWhile (· != c) = c :: a.reverse := by
    rw [dropWhile_append_all _ _ hbrev]
    simp [List.dropWhile]
  rw [h1, h2]
  simp

theorem splitLast_decomp {c : Char} {l a b : List Char}
    (h : splitLast c l = some (a, b)) :
    l = a ++ c :: b ∧ (∀ x ∈ b, (x != c) = true) := by
  unfold splitLast at h
  cases hsf : splitFirst c l.reverse with
  | none => rw [hsf] at h; simp at h
  | some p =>
    obtain ⟨a0, b0⟩ := p
    rw [hsf] at h
    simp at h
    obtain ⟨hdec, hall⟩ := splitFirst_decomp hsf
    have hl : l = b0.reverse ++ c :: a0.reverse := by
      have := congrArg List.reverse hdec
      simpa using this
    refine ⟨?_, ?_⟩
    · rw [← h.1, ← h.2]; exact hl
    · intro x hx
      rw [← h.2] at hx
      exact hall x (by simpa using hx)

theorem splitLast_none {c : Char} {l : List Char}
    (h : l.contains c = false) : splitLast c l = none := by
  unfold splitLast
  have h2 : l.reverse.contains c = false := by
    cases hrc : l.reverse.contains c
    · rfl
    · exfalso
      have hm : c ∈ l.reverse := by simpa using hrc
      have hm2 : c ∈ l := by simpa using hm
      simp at h
      exact h hm2
  rw [splitFirst_none h2]

/-! ### Characterizing the parser on `http://`- and `https://`-headed input -/

/-- Abbreviation: the input after tab/CR/LF removal. -/
def rfOf (r : List Char) : List Char := r.filter (fun c => !isUnsafeUrlByte c)

/-- Abbreviation: the netloc cut out of the sanitized remainder. -/
def nlOf (r : List Char) : List Char :=
  (rfOf r).takeWhile (fun c => !isNetlocDelim c)

def restOf (r : List Char) : List Char :=
  (rfOf r).dropWhile (fun c => !isNetlocDelim c)

def u4Of (r : List Char) : List Char := (restOf r).takeWhile (· != '#')

def pathOf (r : List Char) : List Char := (u4Of r).takeWhile (· != '?')

theorem sanitize_http (r : List Char) :
    sanitizeUrl (httpHead ++ r) = httpHead ++ rfOf r := rfl

theorem sanitize_https (r : List Char) :
    sanitizeUrl (httpsHead ++ r) = httpsHead ++ rfOf r := rfl

theorem scheme_split_http (l : List Char) :
    schemeSplit (httpHead ++ l) = (['h', 't', 't', 'p'], '/' :: '/' :: l) := rfl

theorem scheme_split_https (l : List Char) :
    schemeSplit (httpsHead ++ l) = (['h', 't', 't', 'p', 's'], '/' :: '/' :: l) := rfl

theorem urlsplitModel_http (r : List Char) :
    urlsplitModel (httpHead ++ r) =
      urlsplitStage2 ['h', 't', 't', 'p'] (netlocSplit ('/' :: '/' :: rfOf r)) := rfl

theorem urlsplitModel_https (r : List Char) :
    urlsplitModel (httpsHead ++ r) =
      urlsplitStage2 ['h', 't', 't', 'p', 's'] (netlocSplit ('/' :: '/' :: rfOf r)) := rfl

theorem netlocSplit_slashes (l : List Char) :
    netlocSplit ('/' :: '/' :: l) =
      match netlocChecks (l.takeWhile (fun c => !isNetlocDelim c)) with
      | .error e => .error e
      | .ok _ => .ok (l.takeWhile (fun c => !isNetlocDelim c),
                      l.dropWhile (fun c => !isNetlocDelim c)) := rfl

theorem urlsplit_scheme_ok (sch : List Char) (r : List Char)
    (hc : netlocChecks (nlOf r) = .ok ()) :
    urlsplitStage2 sch (netlocSplit ('/' :: '/' :: rfOf r)) =
      .ok ⟨sch, nlOf r, pathOf r,
           ((u4Of r).dropWhile (· != '?')).drop 1,
           ((restOf r).dropWhile (· != '#')).drop 1⟩ := by
  rw [netlocSplit_slashes]
  rw [show (rfOf r).takeWhile (fun c => !isNetlocDelim c) = nlOf r from rfl]
  rw [hc]
  rfl

theorem urlsplit_scheme_err (sch : List Char) (r : List Char) (e : String)
    (hc : netlocChecks (nlOf r) = .error e) :
    urlsplitStage2 sch (netlocSplit ('/' :: '/' :: rfOf r)) = .error e := by
  rw [netlocSplit_slashes]
  rw [show (rfOf r).takeWhile (fun c => !isNetlocDelim c) = nlOf r from rfl]
  rw [hc]
  rfl

theorem strip_http_ok (r : List Char) (hc : netlocChecks (nlOf r) = .ok ()) :
    stripUrlQueryParamsL (httpHead ++ r) =
      .ok (urlunsplitModel ['h', 't', 't', 'p'] (nlOf r)
            (urlparseParams ['h', 't', 't', 'p'] (pathOf r)).1 [] []) := by
  unfold stripUrlQueryParamsL
  rw [urlsplitModel_http, urlsplit_scheme_ok _ _ hc]
  rfl

theorem strip_https_ok (r : List Char) (hc : netlocChecks (nlOf r) = .ok ()) :
    stripUrlQueryParamsL (httpsHead ++ r) =
      .ok (urlunsplitModel ['h', 't', 't', 'p', 's'] (nlOf r)
            (urlparseParams ['h', 't', 't', 'p', 's'] (pathOf r)).1 [] []) := by
  unfold stripUrlQueryParamsL
  rw [urlsplitModel_https, urlsplit_scheme_ok _ _ hc]
  rfl

theorem strip_http_err (r : List Char) (e : String)
    (hc : netlocChecks (nlOf r) = .error e) :
    stripUrlQueryParamsL (httpHead ++ r) = .error e := by
  unfold stripUrlQueryParamsL
  rw [urlsplitModel_http, urlsplit_scheme_err _ _ _ hc]
  rfl

theorem strip_https_err (r : List Char) (e : String)
    (hc : netlocChecks (nlOf r) = .error e) :
    stripUrlQueryParamsL (httpsHead ++ r) = .error e := by
  unfold stripUrlQueryParamsL
  rw [urlsplitModel_https, urlsplit_scheme_err _ _ _ hc]
  rfl


theorem dropWhile_first_false {p : Char → Bool} {l : List Char} {x : Char}
    {xs : List Char} (h : l.dropWhile p = x :: xs) : p x = false := by
  induction l with
  | nil => simp at h
  | cons y ys ih =>
    by_cases hy : p y
    · rw [List.dropWhile_cons, if_pos hy] at h
      exact ih h
    · rw [List.dropWhile_cons, if_neg hy] at h
      cases h
      exact Bool.of_not_eq_true hy

theorem take_append_len (a b : List Char) (n : Nat) :
    (a ++ b).take (a.length + n) = a ++ b.take n := by
  induction a with
  | nil => simp
  | cons x xs ih => simp [List.take, Nat.succ_add, ih]

theorem take_len_append (a b : List Char) : (a ++ b).take a.length = a := by
  simp

theorem beq_append_cancel (a u v : List Char) : (a ++ u == a ++ v) = (u == v) := by
  induction a with
  | nil => rfl
  | cons x xs ih => simp [List.cons_append, ih]

theorem pyStartsWith_append (a x p : List Char) :
    pyStartsWith (a ++ x) (a ++ p) = (x.take p.length == p) := by
  unfold pyStartsWith
  rw [List.length_append, take_append_len, beq_append_cancel]

theorem pyStartsWith_decomp {l pre : List Char} (h : pyStartsWith l pre = true) :
    l = pre ++ l.drop pre.length := by
  unfold pyStartsWith at h
  have h2 : l.take pre.length = pre := by simpa using h
  conv_lhs => rw [← List.take_append_drop pre.length l]
  rw [h2]

theorem pfxOf_dropLast (l : List Char) : PfxOf l.dropLast l := by
  cases h : l.getLast? with
  | none =>
    have : l = [] := by
      cases l with
      | nil => rfl
      | cons x xs => simp [List.getLast?_eq_getLast] at h
    subst this
    exact pfxOf_refl []
  | some x =>
    exact ⟨[x], (List.dropLast_append_getLast? x h).symm⟩

theorem pfxOf_nil_right {a : List Char} (h : PfxOf a []) : a = [] := by
  obtain ⟨t, ht⟩ := h
  exact List.append_eq_nil.mp ht.symm |>.1

theorem pfxOf_head {a : List Char} {y : Char} {z : List Char}
    (h : PfxOf a (y :: z)) : a = [] ∨ ∃ w, a = y :: w := by
  obtain ⟨t, ht⟩ := h
  cases a with
  | nil => exact Or.inl rfl
  | cons b bs =>
    right
    cases ht
    exact ⟨bs, rfl⟩

/-! Shape facts about the path produced by the parser: it is empty or starts
with a slash, and contains neither `#` nor `?`. -/

theorem pathOf_clean (r : List Char) :
    ∀ x ∈ pathOf r, (x != '#') = true ∧ (x != '?') = true := by
  intro x hx
  have h1 := mem_of_takeWhile hx
  have h2 := mem_of_takeWhile h1.1
  exact ⟨h2.2, h1.2⟩

theorem pathOf_shape (r : List Char) :
    pathOf r = [] ∨ ∃ z, pathOf r = '/' :: z := by
  cases hrest : restOf r with
  | nil =>
    left
    unfold pathOf u4Of
    rw [hrest]
    simp [List.takeWhile]
  | cons x xs =>
    have hx : (!isNetlocDelim x) = false := dropWhile_first_false hrest
    have hx2 : isNetlocDelim x = true := by simpa using hx
    unfold pathOf u4Of
    rw [hrest]
    unfold isNetlocDelim at hx2
    rcases (by simpa using hx2 : (x = '/' ∨ x = '?') ∨ x = '#') with (h | h) | h
    · subst h
      right
      rw [List.takeWhile_cons]
      simp only [show (('/' : Char) != '#') = true from rfl, if_true]
      rw [List.takeWhile_cons]
      simp only [show (('/' : Char) != '?') = true from rfl, if_true]
      exact ⟨_, rfl⟩
    · subst h
      left
      rw [List.takeWhile_cons]
      simp only [show (('?' : Char) != '#') = true from rfl, if_true]
      rw [List.takeWhile_cons]
      simp
    · subst h
      left
      rw [List.takeWhile_cons]
      simp

theorem mem_of_dropWhile {p : Char → Bool} {x : Char} {l : List Char}
    (h : x ∈ l.dropWhile p) : x ∈ l := by
  induction l with
  | nil => simp at h
  | cons y ys ih =>
    by_cases hy : p y
    · rw [List.dropWhile_cons, if_pos hy] at h
      exact List.mem_cons_of_mem y (ih h)
    · rw [List.dropWhile_cons, if_neg hy] at h
      exact h

/-! Re-splitting the params-stripped path is the identity: `_splitparams`
leaves no `;` at or after the last `/`. -/

theorem pfxOf_splitparams (p : List Char) : PfxOf (splitparamsModel p).1 p := by
  cases hsl : splitLast '/' p with
  | some ab =>
    obtain ⟨a, b⟩ := ab
    obtain ⟨hdec, _⟩ := splitLast_decomp hsl
    cases hsf : splitFirst ';' b with
    | some b12 =>
      obtain ⟨b1, b2⟩ := b12
      obtain ⟨hbdec, _⟩ := splitFirst_decomp hsf
      have hval : splitparamsModel p = (a ++ '/' :: b1, b2) := by
        simp only [splitparamsModel, hsl, hsf]
      rw [hval]
      refine ⟨';' :: b2, ?_⟩
      rw [hdec, hbdec]
      simp
    | none =>
      have hval : splitparamsModel p = (p, []) := by
        simp only [splitparamsModel, hsl, hsf]
      rw [hval]
      exact pfxOf_refl p
  | none =>
    cases hsf : splitFirst ';' p with
    | some p12 =>
      obtain ⟨p1, p2⟩ := p12
      obtain ⟨hdec, _⟩ := splitFirst_decomp hsf
      have hval : splitparamsModel p = (p1, p2) := by
        simp only [splitparamsModel, hsl, hsf]
      rw [hval]
      exact ⟨';' :: p2, hdec⟩
    | none =>
      have hval : splitparamsModel p = (p.dropLast, p) := by
        simp only [splitparamsModel, hsl, hsf]
      rw [hval]
      exact pfxOf_dropLast p

theorem splitparams_stable (p : List Char) (hp : p.contains ';' = true) :
    (splitparamsModel p).1.contains ';' = false ∨
      splitparamsModel ((splitparamsModel p).1) = ((splitparamsModel p).1, []) := by
  cases hsl : splitLast '/' p with
  | some ab =>
    obtain ⟨a, b⟩ := ab
    obtain ⟨hdec, hbfree⟩ := splitLast_decomp hsl
    cases hsf : splitFirst ';' b with
    | some b12 =>
      obtain ⟨b1, b2⟩ := b12
      obtain ⟨hbdec, hb1free⟩ := splitFirst_decomp hsf
      right
      have hval : splitparamsModel p = (a ++ '/' :: b1, b2) := by
        simp only [splitparamsModel, hsl, hsf]
      rw [hval]
      have hb1slash : ∀ x ∈ b1, (x != '/') = true := by
        intro x hx
        exact hbfree x (by rw [hbdec]; simp [hx])
      have h1 : splitLast '/' (a ++ '/' :: b1) = some (a, b1) :=
        splitLast_append '/' a b1 hb1slash
      have h2 : splitFirst ';' b1 = none :=
        splitFirst_none (contains_false_of_all hb1free)
      simp only [splitparamsModel, h1, h2]
    | none =>
      right
      have hval : splitparamsModel p = (p, []) := by
        simp only [splitparamsModel, hsl, hsf]
      rw [hval]
      simp only [splitparamsModel, hsl, hsf]
  | none =>
    cases hsf : splitFirst ';' p with
    | some p12 =>
      obtain ⟨p1, p2⟩ := p12
      obtain ⟨_, hp1free⟩ := splitFirst_decomp hsf
      left
      have hval : splitparamsModel p = (p1, p2) := by
        simp only [splitparamsModel, hsl, hsf]
      rw [hval]
      exact contains_false_of_all hp1free
    | none =>
      rw [splitFirst_isSome hp] at hsf
      cases hsf

theorem pfxOf_urlparseParams (sch p : List Char) :
    PfxOf (urlparseParams sch p).1 p := by
  unfold urlparseParams
  by_cases hg : (usesParams.contains (String.mk sch) && p.contains ';') = true
  · rw [if_pos hg]
    exact pfxOf_splitparams p
  · rw [if_neg hg]
    exact pfxOf_refl p

theorem urlparseParams_idem (sch p : List Char) :
    urlparseParams sch (urlparseParams sch p).1 = ((urlparseParams sch p).1, []) := by
  by_cases hg : (usesParams.contains (String.mk sch) && p.contains ';') = true
  · have hq1 : (urlparseParams sch p).1 = (splitparamsModel p).1 := by
      unfold urlparseParams
      rw [if_pos hg]
    have hp : p.contains ';' = true := ((Bool.and_eq_true _ _).mp hg).2
    rcases splitparams_stable p hp with hnone | hstab
    · rw [hq1]
      have hcnd : ¬ ((usesParams.contains (String.mk sch) &&
          (splitparamsModel p).1.contains ';') = true) := by
        intro hcontra
        have h2 := ((Bool.and_eq_true _ _).mp hcontra).2
        rw [hnone] at h2
        cases h2
      simp only [urlparseParams]
      rw [if_neg hcnd]
    · rw [hq1]
      by_cases hg2 : (usesParams.contains (String.mk sch) && (splitparamsModel p).1.contains ';') = true
      · simp only [urlparseParams]
        rw [if_pos hg2]
        exact hstab
      · simp only [urlparseParams]
        rw [if_neg hg2]
  · have hq1 : (urlparseParams sch p).1 = p := by
      unfold urlparseParams
      rw [if_neg hg]
    rw [hq1]
    simp only [urlparseParams]
    rw [if_neg hg]

/-! Computation of `urlunsplit` on the two relevant netloc cases. -/

theorem unsplit_cons (sch : List Char) (hsch : sch ≠ []) (n : Char) (ns p2 : List Char)
    (hp2 : p2 = [] ∨ ∃ z, p2 = '/' :: z) :
    urlunsplitModel sch (n :: ns) p2 [] [] = sch ++ ':' :: '/' :: '/' :: ((n :: ns) ++ p2) := by
  obtain ⟨c, cs, rfl⟩ : ∃ c cs, sch = c :: cs := by
    cases sch with
    | nil => exact absurd rfl hsch
    | cons c cs => exact ⟨c, cs, rfl⟩
  rcases hp2 with rfl | ⟨z, rfl⟩ <;> simp [urlunsplitModel]

theorem unsplit_nil (sch : List Char) (hsch : sch ≠ [])
    (husesN : usesNetloc.contains (String.mk sch) = true) (p2 : List Char)
    (hp2 : p2 = [] ∨ ∃ z, p2 = '/' :: z) (hnn : ¬ p2.take 2 = ['/', '/']) :
    urlunsplitModel sch [] p2 [] [] = sch ++ ':' :: '/' :: '/' :: p2 := by
  obtain ⟨c, cs, rfl⟩ : ∃ c cs, sch = c :: cs := by
    cases sch with
    | nil => exact absurd rfl hsch
    | cons c cs => exact ⟨c, cs, rfl⟩
  have hnn2 : (p2.take 2 != ['/', '/']) = true := by
    simp only [bne_iff_ne]
    exact hnn
  have hmem : String.mk (c :: cs) ∈ usesNetloc := by simpa using husesN
  rcases hp2 with rfl | ⟨z, rfl⟩
  · simp [urlunsplitModel, hmem]
  · have hz : ¬ List.take 1 z = ['/'] := by
      intro hz1
      apply hnn
      simp [List.take, hz1]
    simp [urlunsplitModel, hmem, hz]

theorem netlocChecks_nil : netlocChecks [] = .ok () := rfl

theorem p2_shape (sch p : List Char) (hp : p = [] ∨ ∃ z, p = '/' :: z) :
    (urlparseParams sch p).1 = [] ∨ ∃ z, (urlparseParams sch p).1 = '/' :: z := by
  have hpfx := pfxOf_urlparseParams sch p
  rcases hp with rfl | ⟨z, rfl⟩
  · exact Or.inl (pfxOf_nil_right hpfx)
  · rcases pfxOf_head hpfx with h | ⟨w, hw⟩
    · exact Or.inl h
    · exact Or.inr ⟨w, hw⟩

theorem reparse_components (nl p2 : List Char)
    (hnl_delim : ∀ x ∈ nl, (!isNetlocDelim x) = true)
    (hsafe : ∀ x ∈ nl ++ p2, (!isUnsafeUrlByte x) = true)
    (hshape : p2 = [] ∨ ∃ z, p2 = '/' :: z)
    (hclean : ∀ x ∈ p2, (x != '#') = true ∧ (x != '?') = true) :
    nlOf (nl ++ p2) = nl ∧ pathOf (nl ++ p2) = p2 := by
  have hrf : rfOf (nl ++ p2) = nl ++ p2 := filter_eq_self_all _ hsafe
  have htw : (nl ++ p2).takeWhile (fun c => !isNetlocDelim c) = nl := by
    rw [takeWhile_append_all _ _ hnl_delim]
    rcases hshape with rfl | ⟨z, rfl⟩
    · simp [List.takeWhile]
    · rw [List.takeWhile_cons]
      simp [isNetlocDelim]
  have hdw : (nl ++ p2).dropWhile (fun c => !isNetlocDelim c) = p2 := by
    rw [dropWhile_append_all _ _ hnl_delim]
    rcases hshape with rfl | ⟨z, rfl⟩
    · simp
    · exact dropWhile_cons_false (by simp [isNetlocDelim])
  refine ⟨?_, ?_⟩
  · unfold nlOf
    rw [hrf, htw]
  · unfold pathOf u4Of restOf
    rw [hrf, hdw]
    rw [takeWhile_eq_self p2 (fun x hx => (hclean x hx).1)]
    rw [takeWhile_eq_self p2 (fun x hx => (hclean x hx).2)]

/-- Core idempotence property of the query-stripper on scheme-headed input:
given that the sanitized remainder does not begin with `//` (the
empty-authority collapse that makes stripping non-idempotent), a successful
strip yields a fixed point that still carries the scheme head. -/
theorem strip_idem_generic
    (shead sch r t : List Char)
    (hshead : shead = sch ++ [':', '/', '/'])
    (hsch_ne : sch ≠ [])
    (husesN : usesNetloc.contains (String.mk sch) = true)
    (hok : ∀ rr, netlocChecks (nlOf rr) = .ok () →
        stripUrlQueryParamsL (shead ++ rr) =
          .ok (urlunsplitModel sch (nlOf rr) (urlparseParams sch (pathOf rr)).1 [] []))
    (herr : ∀ rr e, netlocChecks (nlOf rr) = .error e →
        stripUrlQueryParamsL (shead ++ rr) = .error e)
    (hgood : ¬ (rfOf r).take 2 = ['/', '/'])
    (hstrip : stripUrlQueryParamsL (shead ++ r) = .ok t) :
    (∃ w, t = shead ++ w) ∧ stripUrlQueryParamsL t = .ok t := by
  cases hc : netlocChecks (nlOf r) with
  | error e =>
    rw [herr r e hc] at hstrip
    cases hstrip
  | ok u =>
    cases u
    rw [hok r hc] at hstrip
    have ht : t = urlunsplitModel sch (nlOf r) (urlparseParams sch (pathOf r)).1 [] [] := by
      injection hstrip with h
      exact h.symm
    have hpfx_path : PfxOf (urlparseParams sch (pathOf r)).1 (pathOf r) :=
      pfxOf_urlparseParams sch (pathOf r)
    have hclean : ∀ x ∈ (urlparseParams sch (pathOf r)).1,
        (x != '#') = true ∧ (x != '?') = true :=
      fun x hx => pathOf_clean r x (pfxOf_mem hpfx_path hx)
    have hshape : (urlparseParams sch (pathOf r)).1 = [] ∨
        ∃ z, (urlparseParams sch (pathOf r)).1 = '/' :: z :=
      p2_shape sch (pathOf r) (pathOf_shape r)
    have hsafe_p2 : ∀ x ∈ (urlparseParams sch (pathOf r)).1,
        (!isUnsafeUrlByte x) = true := by
      intro x hx
      have h1 : x ∈ pathOf r := pfxOf_mem hpfx_path hx
      have h2 : x ∈ u4Of r := (mem_of_takeWhile h1).1
      have h3 : x ∈ restOf r := (mem_of_takeWhile h2).1
      have h4 : x ∈ rfOf r := mem_of_dropWhile h3
      exact (mem_filter_keep h4).2
    have hidem := urlparseParams_idem sch (pathOf r)
    cases hnlc : nlOf r with
    | cons n ns =>
      have hnl_delim : ∀ x ∈ (n :: ns : List Char), (!isNetlocDelim x) = true := by
        intro x hx
        rw [← hnlc] at hx
        exact (mem_of_takeWhile hx).2
      have hsafe : ∀ x ∈ (n :: ns) ++ (urlparseParams sch (pathOf r)).1,
          (!isUnsafeUrlByte x) = true := by
        intro x hx
        rcases List.mem_append.mp hx with h | h
        · rw [← hnlc] at h
          exact (mem_filter_keep (mem_of_takeWhile h).1).2
        · exact hsafe_p2 x h
      have ht2 : t = shead ++ ((n :: ns) ++ (urlparseParams sch (pathOf r)).1) := by
        rw [ht, hnlc, unsplit_cons sch hsch_ne n ns _ hshape, hshead]
        simp
      obtain ⟨hnl_eq, hpath_eq⟩ :=
        reparse_components (n :: ns) _ hnl_delim hsafe hshape hclean
      refine ⟨⟨(n :: ns) ++ (urlparseParams sch (pathOf r)).1, ht2⟩, ?_⟩
      have hcheck : netlocChecks (nlOf ((n :: ns) ++ (urlparseParams sch (pathOf r)).1)) = .ok () := by
        rw [hnl_eq, ← hnlc]
        exact hc
      rw [ht2, hok _ hcheck, hnl_eq, hpath_eq, hidem]
      rw [show ((urlparseParams sch (pathOf r)).1, ([] : List Char)).1 =
            (urlparseParams sch (pathOf r)).1 from rfl]
      rw [unsplit_cons sch hsch_ne n ns _ hshape, hshead]
      simp
    | nil =>
      have hrest : restOf r = rfOf r := takeWhile_nil_dropWhile hnlc
      have hpfx_rf : PfxOf (urlparseParams sch (pathOf r)).1 (rfOf r) := by
        have h1 : PfxOf (pathOf r) (u4Of r) := pfxOf_takeWhile _
        have h2 : PfxOf (u4Of r) (restOf r) := pfxOf_takeWhile _
        rw [hrest] at h2
        exact pfxOf_trans hpfx_path (pfxOf_trans h1 h2)
      have hnn : ¬ (urlparseParams sch (pathOf r)).1.take 2 = ['/', '/'] := by
        intro hcontra
        exact hgood (pfxOf_take2 hpfx_rf hcontra)
      have ht2 : t = shead ++ (urlparseParams sch (pathOf r)).1 := by
        rw [ht, hnlc, unsplit_nil sch hsch_ne husesN _ hshape hnn, hshead]
        simp
      have hsafe : ∀ x ∈ ([] : List Char) ++ (urlparseParams sch (pathOf r)).1,
          (!isUnsafeUrlByte x) = true := by
        intro x hx
        exact hsafe_p2 x (by simpa using hx)
      obtain ⟨hnl_eq, hpath_eq⟩ :=
        reparse_components [] _ (by simp) hsafe hshape hclean
      simp only [List.nil_append] at hnl_eq hpath_eq
      refine ⟨⟨(urlparseParams sch (pathOf r)).1, ht2⟩, ?_⟩
      have hcheck : netlocChecks (nlOf ((urlparseParams sch (pathOf r)).1)) = .ok () := by
        rw [hnl_eq]
        exact netlocChecks_nil
      rw [ht2, hok _ hcheck, hnl_eq, hpath_eq, hidem]
      rw [show ((urlparseParams sch (pathOf r)).1, ([] : List Char)).1 =
            (urlparseParams sch (pathOf r)).1 from rfl]
      rw [unsplit_nil sch hsch_ne husesN _ hshape hnn, hshead]
      simp

theorem pyStartsWith_self_append (a w : List Char) :
    pyStartsWith (a ++ w) a = true := by
  unfold pyStartsWith
  rw [take_len_append]
  simp

/-- The amended-claim restriction: a string is unproblematic for repeated
normalization unless it is stripped (starts with `http://` or `https://`)
and its sanitized form has an empty authority followed by a path starting
with `//` (i.e. starts with `http:////` or `https:////`), where
`urlunsplit` collapses one level of slashes per pass. -/
def goodString (s : String) : Bool :=
  !((pyStartsWith s.data httpHead || pyStartsWith s.data httpsHead) &&
    (pyStartsWith (sanitizeUrl s.data) (httpHead ++ ['/', '/']) ||
     pyStartsWith (sanitizeUrl s.data) (httpsHead ++ ['/', '/'])))

theorem strip_good_str (s : String) (t : List Char)
    (hgood : goodString s = true)
    (hpre : (pyStartsWith s.data httpHead || pyStartsWith s.data httpsHead) = true)
    (hstrip : stripUrlQueryParamsL s.data = .ok t) :
    (pyStartsWith t httpHead || pyStartsWith t httpsHead) = true ∧
      stripUrlQueryParamsL t = .ok t := by
  unfold goodString at hgood
  rw [hpre] at hgood
  simp only [Bool.true_and, Bool.not_eq_true'] at hgood
  have hgood1 : pyStartsWith (sanitizeUrl s.data) (httpHead ++ ['/', '/']) = false := by
    cases hx : pyStartsWith (sanitizeUrl s.data) (httpHead ++ ['/', '/'])
    · rfl
    · rw [hx] at hgood
      simp at hgood
  have hgood2 : pyStartsWith (sanitizeUrl s.data) (httpsHead ++ ['/', '/']) = false := by
    cases hx : pyStartsWith (sanitizeUrl s.data) (httpsHead ++ ['/', '/'])
    · rfl
    · rw [hx] at hgood
      simp at hgood
  rcases (by simpa using hpre :
      pyStartsWith s.data httpHead = true ∨ pyStartsWith s.data httpsHead = true) with hh | hh
  · have hdec := pyStartsWith_decomp hh
    rw [hdec] at hgood1 hstrip
    rw [sanitize_http, pyStartsWith_append] at hgood1
    have hrf : ¬ (rfOf (s.data.drop httpHead.length)).take 2 = ['/', '/'] := by
      intro hcontra
      simp [hcontra] at hgood1
    obtain ⟨⟨w, hw⟩, hfix⟩ := strip_idem_generic httpHead ['h', 't', 't', 'p']
      (s.data.drop httpHead.length) t rfl (by simp) (by decide)
      strip_http_ok strip_http_err hrf hstrip
    refine ⟨?_, hfix⟩
    rw [hw, pyStartsWith_self_append]
    simp
  · have hdec := pyStartsWith_decomp hh
    rw [hdec] at hgood2 hstrip
    rw [sanitize_https, pyStartsWith_append] at hgood2
    have hrf : ¬ (rfOf (s.data.drop httpsHead.length)).take 2 = ['/', '/'] := by
      intro hcontra
      simp [hcontra] at hgood2
    obtain ⟨⟨w, hw⟩, hfix⟩ := strip_idem_generic httpsHead ['h', 't', 't', 'p', 's']
      (s.data.drop httpsHead.length) t rfl (by simp) (by decide)
      strip_https_ok strip_https_err hrf hstrip
    refine ⟨?_, hfix⟩
    rw [hw, pyStartsWith_self_append]
    simp

mutual

def goodJson : Json → Bool
  | .str s => goodString s
  | .arr xs => goodJsonList xs
  | .obj kvs => goodJsonObj kvs
  | _ => true
termination_by structural x => x

def goodJsonList : List Json → Bool
  | [] => true
  | x :: xs => goodJson x && goodJsonList xs
termination_by structural x => x

def goodJsonObj : List (String × Json) → Bool
  | [] => true
  | (_, v) :: kvs => goodJson v && goodJsonObj kvs
termination_by structural x => x

end

theorem normJson_str_pos (s : String)
    (hpre : (pyStartsWith s.data httpHead || pyStartsWith s.data httpsHead) = true) :
    normJson (.str s) =
      (stripUrlQueryParamsL s.data).map (fun l => .str (String.mk l)) := by
  unfold normJson strip_url_query_params
  rw [if_pos hpre]
  cases hs : stripUrlQueryParamsL s.data <;> rfl

theorem normJson_str_neg (s : String)
    (hpre : (pyStartsWith s.data httpHead || pyStartsWith s.data httpsHead) = false) :
    normJson (.str s) = .ok (.str s) := by
  unfold normJson
  rw [if_neg (by simp [hpre])]
  rfl

theorem normJson_arr_eq (xs : List Json) :
    normJson (.arr xs) = (normArr xs).map Json.arr := by
  unfold normJson
  cases hs : normArr xs <;> rfl

theorem normJson_obj_eq (kvs : List (String × Json)) :
    normJson (.obj kvs) = (normObj kvs).map Json.obj := by
  unfold normJson
  cases hs : normObj kvs <;> rfl

mutual

theorem normJson_idem : ∀ x y, goodJson x = true → normJson x = .ok y → normJson y = .ok y
  | .null, y, _, h => by
      have h2 : (Except.ok Json.null : Except String Json) = .ok y := h
      injection h2 with h3
      subst h3
      rfl
  | .bool b, y, _, h => by
      have h2 : (Except.ok (Json.bool b) : Except String Json) = .ok y := h
      injection h2 with h3
      subst h3
      rfl
  | .num n, y, _, h => by
      have h2 : (Except.ok (Json.num n) : Except String Json) = .ok y := h
      injection h2 with h3
      subst h3
      rfl
  | .str s, y, hg, h => by
      cases hpre : (pyStartsWith s.data httpHead || pyStartsWith s.data httpsHead) with
      | false =>
        rw [normJson_str_neg s hpre] at h
        injection h with h3
        subst h3
        exact normJson_str_neg s hpre
      | true =>
        rw [normJson_str_pos s hpre] at h
        cases hs : stripUrlQueryParamsL s.data with
        | error e =>
          rw [hs] at h
          cases h
        | ok t =>
          rw [hs] at h
          have h2 : (Except.ok (Json.str (String.mk t)) : Except String Json) = .ok y := h
          injection h2 with h3
          subst h3
          obtain ⟨hpre2, hfix⟩ :=
            strip_good_str s t (by simpa [goodJson] using hg) hpre hs
          rw [normJson_str_pos (String.mk t) hpre2, hfix]
          rfl
  | .arr xs, y, hg, h => by
      rw [normJson_arr_eq] at h
      cases hxs : normArr xs with
      | error e =>
        rw [hxs] at h
        cases h
      | ok vs =>
        rw [hxs] at h
        have h2 : (Except.ok (Json.arr vs) : Except String Json) = .ok y := h
        injection h2 with h3
        subst h3
        rw [normJson_arr_eq, normArr_idem xs vs (by simpa [goodJson] using hg) hxs]
        rfl
  | .obj kvs, y, hg, h => by
      rw [normJson_obj_eq] at h
      cases hkvs : normObj kvs with
      | error e =>
        rw [hkvs] at h
        cases h
      | ok vs =>
        rw [hkvs] at h
        have h2 : (Except.ok (Json.obj vs) : Except String Json) = .ok y := h
        injection h2 with h3
        subst h3
        rw [normJson_obj_eq, normObj_idem kvs vs (by simpa [goodJson] using hg) hkvs]
        rfl
termination_by structural x => x

theorem normArr_idem : ∀ xs ys, goodJsonList xs = true → normArr xs = .ok ys → normArr ys = .ok ys
  | [], ys, _, h => by
      have h2 : (Except.ok ([] : List Json) : Except String (List Json)) = .ok ys := h
      injection h2 with h3
      subst h3
      rfl
  | x :: xs, ys, hg, h => by
      have hgx : goodJson x = true ∧ goodJsonList xs = true := by
        simpa [goodJsonList, Bool.and_eq_true] using hg
      unfold normArr at h
      cases hx : normJson x with
      | error e =>
        rw [hx] at h
        cases h
      | ok v =>
        rw [hx] at h
        cases hxs2 : normArr xs with
        | error e =>
          rw [hxs2] at h
          cases h
        | ok vs =>
          rw [hxs2] at h
          have h2 : (Except.ok (v :: vs) : Except String (List Json)) = .ok ys := h
          injection h2 with h3
          subst h3
          unfold normArr
          rw [normJson_idem x v hgx.1 hx, normArr_idem xs vs hgx.2 hxs2]
          rfl
termination_by structural x => x

theorem normObj_idem : ∀ kvs vs, goodJsonObj kvs = true → normObj kvs = .ok vs → normObj vs = .ok vs
  | [], vs, _, h => by
      have h2 : (Except.ok ([] : List (String × Json)) : Except String (List (String × Json))) = .ok vs := h
      injection h2 with h3
      subst h3
      rfl
  | (k, v) :: kvs, vs, hg, h => by
      have hgx : goodJson v = true ∧ goodJsonObj kvs = true := by
        simpa [goodJsonObj, Bool.and_eq_true] using hg
      unfold normObj at h
      cases hv : normJson v with
      | error e =>
        rw [hv] at h
        cases h
      | ok w =>
        rw [hv] at h
        cases hkvs2 : normObj kvs with
        | error e =>
          rw [hkvs2] at h
          cases h
        | ok ws =>
          rw [hkvs2] at h
          have h2 : (Except.ok ((k, w) :: ws) : Except String (List (String × Json))) = .ok vs := h
          injection h2 with h3
          subst h3
          unfold normObj
          rw [normJson_idem v w hgx.1 hv, normObj_idem kvs ws hgx.2 hkvs2]
          rfl
termination_by structural x => x

end

/-- C4 counterexample: normalization is NOT idempotent as claimed.  For the
snapshot value `"http://////a"` (empty authority, path starting with `//`),
one normalization yields `"http:////a"`, but normalizing that again yields
`"http://a"`: the reassembly collapses one level of slashes per pass, so
`normalize (normalize x) ≠ normalize x`. -/
theorem c4_claim_counterexample :
    normJson (.str "http://////a") = .ok (.str "http:////a") ∧
    normJson (.str "http:////a") = .ok (.str "http://a") ∧
    Json.str "http:////a" ≠ Json.str "http://a" :=
  ⟨rfl, rfl, by decide⟩

/-- C4 (amended): normalization is idempotent on every snapshot value whose
strings, when they begin with `http://` or `https://`, do not sanitize to a
form beginning with `http:////` or `https:////` (empty authority with a
path starting `//`): whenever `normalize_data_for_comparison` succeeds on
such a value, applying it to the result returns the result unchanged. -/
theorem c4_normalize_idem (x y : Json) (hg : goodJson x = true)
    (h : normJson x = .ok y) : normJson y = .ok y :=
  normJson_idem x y hg h

/-- Witness for C4: a concrete snapshot with a signed URL normalizes to the
query-stripped URL, and normalizing again is the identity. -/
theorem c4_normalize_idem_witness :
    goodJson (.obj [("url", .str "http://cdn.example.com/file.zip?sign=AAA&exp=1"),
                    ("ver", .num 3)]) = true ∧
    normJson (.obj [("url", .str "http://cdn.example.com/file.zip?sign=AAA&exp=1"),
                    ("ver", .num 3)]) =
      .ok (.obj [("url", .str "http://cdn.example.com/file.zip"), ("ver", .num 3)]) ∧
    normJson (.obj [("url", .str "http://cdn.example.com/file.zip"), ("ver", .num 3)]) =
      .ok (.obj [("url", .str "http://cdn.example.com/file.zip"), ("ver", .num 3)]) :=
  ⟨by decide, by rfl,
   c4_normalize_idem
     (.obj [("url", .str "http://cdn.example.com/file.zip?sign=AAA&exp=1"),
            ("ver", .num 3)])
     (.obj [("url", .str "http://cdn.example.com/file.zip"), ("ver", .num 3)])
     (by decide) (by rfl)⟩

/-! ### `utils.pkcs7_unpad`

Bytes are modelled as natural numbers (each < 256 in practice; the function
only compares them and reads the final byte).  Python slice semantics:
`data[-k:]` is `drop (length - k)` and `data[:-k]` is `take (length - k)`,
both saturating when `k` exceeds the length. -/

def pkcs7_unpad (data : List Nat) : List Nat :=
  match data.getLast? with
  | none => data
  | some padding_len =>
    if 0 < padding_len ∧ padding_len ≤ 16 then
      if (data.drop (data.length - padding_len)).all (fun b => b == padding_len) then
        data.take (data.length - padding_len)
      else data
    else data

theorem getLast_replicate (n x : Nat) (hn : n ≠ 0) :
    (List.replicate n x).getLast? = some x := by
  cases n with
  | zero => omega
  | succ m =>
    rw [List.replicate_succ', List.getLast?_concat]

theorem pkcs7_unpad_eval (data : List Nat) (p : Nat) (h : data.getLast? = some p) :
    pkcs7_unpad data =
      if 0 < p ∧ p ≤ 16 then
        if (data.drop (data.length - p)).all (fun b => b == p) then
          data.take (data.length - p)
        else data
      else data := by
  unfold pkcs7_unpad
  rw [h]

/-- C8 counterexample: the claim is false for `[5, 5, 5]`.  Its padding is
invalid in the claimed sense (the padding length 5 exceeds the length 3,
so there are not five trailing bytes equal to 5), yet `pkcs7_unpad` does
not return the input unmodified: Python's saturating slice strips the whole
input to the empty byte string. -/
theorem c8_claim_counterexample :
    pkcs7_unpad [5, 5, 5] = [] ∧ ([] : List Nat) ≠ [5, 5, 5] ∧
      ([5, 5, 5] : List Nat).length < 5 :=
  ⟨by decide, by decide, by decide⟩

/-- C8 (amended): `pkcs7_unpad` strips exactly the final `padding_len` bytes
when the final byte `padding_len` lies in `[1, 16]` and the input ends in
`padding_len` copies of it; when the final byte `padding_len` lies in
`[1, 16]` but exceeds the input length and every byte equals `padding_len`,
it strips everything and returns the empty byte string; in every other case
(final byte `0` or above `16`, a mismatched trailing byte, or empty input)
it returns the input unmodified. -/
theorem c8_pkcs7_unpad_amended :
    (∀ (front : List Nat) (p : Nat), 1 ≤ p → p ≤ 16 →
        pkcs7_unpad (front ++ List.replicate p p) = front) ∧
    (∀ (k p : Nat), 1 ≤ k → k < p → p ≤ 16 →
        pkcs7_unpad (List.replicate k p) = []) ∧
    (∀ (data : List Nat) (p : Nat), data.getLast? = some p →
        ((p = 0 ∨ 16 < p) ∨
          (data.drop (data.length - p)).all (fun b => b == p) = false) →
        pkcs7_unpad data = data) ∧
    pkcs7_unpad [] = [] := by
  refine ⟨?_, ?_, ?_, rfl⟩
  · intro front p hp1 hp16
    have hrep : List.replicate p p ≠ [] := by
      intro hcontra
      rw [List.replicate_eq_nil_iff] at hcontra
      omega
    have hlast : (front ++ List.replicate p p).getLast? = some p := by
      rw [List.getLast?_append_of_ne_nil _ hrep]
      exact getLast_replicate p p (by omega)
    have hlen : (front ++ List.replicate p p).length - p = front.length := by
      simp
    rw [pkcs7_unpad_eval _ p hlast, if_pos ⟨hp1, hp16⟩, hlen]
    rw [show (front ++ List.replicate p p).drop front.length = List.replicate p p from
          List.drop_left front _]
    rw [if_pos ?hall]
    · exact List.take_left front _
    case hall =>
      simp [List.all_eq_true]
  · intro k p hk1 hkp hp16
    have hlast : (List.replicate k p).getLast? = some p :=
      getLast_replicate k p (by omega)
    have hlen : (List.replicate k p).length - p = 0 := by
      simp
      omega
    rw [pkcs7_unpad_eval _ p hlast, if_pos ⟨by omega, hp16⟩, hlen]
    rw [List.drop_zero, if_pos ?hall2]
    · exact List.take_zero _
    case hall2 =>
      simp [List.all_eq_true]
  · intro data p hlast hbad
    rw [pkcs7_unpad_eval _ p hlast]
    rcases hbad with hrange | hall
    · rw [if_neg ?hc]
      case hc =>
        rintro ⟨h1, h2⟩
        rcases hrange with h | h <;> omega
    · by_cases hrange2 : 0 < p ∧ p ≤ 16
      · rw [if_pos hrange2, hall]
        simp
      · rw [if_neg hrange2]

/-- Witness for C8: concrete instances of all three behaviors. -/
theorem c8_pkcs7_unpad_amended_witness :
    pkcs7_unpad ([10, 11] ++ List.replicate 3 3) = [10, 11] ∧
    pkcs7_unpad (List.replicate 2 5) = [] ∧
    pkcs7_unpad [10, 17] = [10, 17] :=
  ⟨c8_pkcs7_unpad_amended.1 [10, 11] 3 (by decide) (by decide),
   c8_pkcs7_unpad_amended.2.1 2 5 (by decide) (by decide) (by decide),
   c8_pkcs7_unpad_amended.2.2.1 [10, 17] 17 (by decide) (Or.inl (Or.inr (by decide)))⟩

/-! ### The versioned snapshot store (`update_checker.save_config`)

UUIDs are modelled as naturals; `UUID(int=0)` — the sentinel installed by
`_create_empty_platform_config` — is `0`.  `uuid4()` minting is modelled by
a counter supplied by the caller (fresh, nonzero).  Entry data is the
JSON dump of the stored model (`model_dump(mode="json")` is applied before
comparison in the source; the model stores dumps directly). -/

structure RemoteConfigData where
  data : Json
  fetch_time : String
  deriving DecidableEq

/-- Generic insertion-ordered dict assignment `d[k] = v`: replace in place
when the key is present, append otherwise. -/
def ainsert {κ α : Type} [BEq κ] (l : List (κ × α)) (k : κ) (v : α) : List (κ × α) :=
  if l.any (fun kv => kv.1 == k) then
    l.map (fun kv => if kv.1 == k then (kv.1, v) else kv)
  else l ++ [(k, v)]

def ulookup (l : List (Nat × RemoteConfigData)) (k : Nat) : Option RemoteConfigData :=
  match l with
  | [] => none
  | (k', v) :: rest => if k' == k then some v else ulookup rest k

def ukeyMem (l : List (Nat × RemoteConfigData)) (k : Nat) : Bool :=
  match l with
  | [] => false
  | (k', _) :: rest => k' == k || ukeyMem rest k

/-- `RemoteConfigDataWithUUID`: per-(platform, kind) history — id-to-entry
mapping, store-level timestamp, and the latest-id pointer. -/
structure RemoteConfigDataWithUUID where
  data : List (Nat × RemoteConfigData)
  last_updated : String
  last_uuid : Nat
  deriving DecidableEq

/-- Python truthiness of a `uuid.UUID`: the class defines no `__bool__`, so
every UUID — including `UUID(int=0)` — is truthy. -/
def uuidTruthy (_ : Nat) : Bool := true

/-- The `last_saved_data` computation of `_update_config_type_storage`:
`None` (modelled `Json.null`) unless the latest pointer is truthy and
present in the mapping, in which case the latest entry's (dumped) data. -/
def lastSavedData (s : RemoteConfigDataWithUUID) : Json :=
  if uuidTruthy s.last_uuid && ukeyMem s.data s.last_uuid then
    match ulookup s.data s.last_uuid with
    | some e => e.data
    | none => Json.null
  else Json.null

/-- `_update_config_type_storage` (inside `save_config`): compare the
normalized latest entry against the normalized fresh item; if unchanged,
only refresh the store-level `last_updated` timestamp; if changed, copy the
mapping, add the entry under a fresh uuid `u`, and repoint `last_uuid`.
Normalization exceptions propagate. -/
def updateConfigTypeStorage (now : String) (u : Nat) (s : RemoteConfigDataWithUUID)
    (item : Json) : Except String RemoteConfigDataWithUUID :=
  match normJson (lastSavedData s), normJson item with
  | .error e, _ => .error e
  | .ok _, .error e => .error e
  | .ok a, .ok b =>
    if pyEq a b then .ok { s with last_updated := now }
    else .ok { data := ainsert s.data u ⟨item, now⟩, last_updated := now, last_uuid := u }

theorem updateCTS_eval (now : String) (u : Nat) (s : RemoteConfigDataWithUUID)
    (item : Json) (a b : Json)
    (ha : normJson (lastSavedData s) = .ok a) (hb : normJson item = .ok b) :
    updateConfigTypeStorage now u s item =
      if pyEq a b then .ok { s with last_updated := now }
      else .ok { data := ainsert s.data u ⟨item, now⟩, last_updated := now,
                 last_uuid := u } := by
  unfold updateConfigTypeStorage
  rw [ha, hb]

theorem ukeyMem_any_eq (l : List (Nat × RemoteConfigData)) (k : Nat) :
    ukeyMem l k = l.any (fun kv => kv.1 == k) := by
  induction l with
  | nil => rfl
  | cons x xs ih => simp [ukeyMem, ih]

theorem ukeyMem_append (l1 l2 : List (Nat × RemoteConfigData)) (k : Nat) :
    ukeyMem (l1 ++ l2) k = (ukeyMem l1 k || ukeyMem l2 k) := by
  induction l1 with
  | nil => simp [ukeyMem]
  | cons x xs ih => simp [ukeyMem, ih, Bool.or_assoc]

theorem ukeyMem_map_assign (l : List (Nat × RemoteConfigData)) (k : Nat)
    (v : RemoteConfigData) :
    ukeyMem (l.map (fun kv => if kv.1 == k then (kv.1, v) else kv)) k =
      ukeyMem l k := by
  induction l with
  | nil => rfl
  | cons x xs ih =>
    by_cases hx : x.1 == k
    · rw [List.map_cons, if_pos hx]
      unfold ukeyMem
      rw [ih]
    · rw [List.map_cons, if_neg hx]
      unfold ukeyMem
      rw [ih]

theorem ukeyMem_ainsert_self (l : List (Nat × RemoteConfigData)) (k : Nat)
    (v : RemoteConfigData) : ukeyMem (ainsert l k v) k = true := by
  unfold ainsert
  by_cases h : l.any (fun kv => kv.1 == k) = true
  · rw [if_pos h, ukeyMem_map_assign, ukeyMem_any_eq]
    exact h
  · rw [if_neg h, ukeyMem_append]
    simp [ukeyMem]

theorem mem_ainsert_of_fresh (l : List (Nat × RemoteConfigData)) (k : Nat)
    (v : RemoteConfigData) (hfresh : ukeyMem l k = false) :
    ∀ kv ∈ l, kv ∈ ainsert l k v := by
  intro kv hkv
  unfold ainsert
  have hany : l.any (fun kv => kv.1 == k) = false := by
    rw [← ukeyMem_any_eq]
    exact hfresh
  rw [if_neg (by rw [hany]; simp)]
  simp [hkv]

theorem ukeyMem_of_ulookup {l : List (Nat × RemoteConfigData)} {k : Nat}
    {e : RemoteConfigData} (h : ulookup l k = some e) : ukeyMem l k = true := by
  induction l with
  | nil => cases h
  | cons x xs ih =>
    unfold ulookup at h
    unfold ukeyMem
    by_cases hx : (x.1 == k) = true
    · simp [hx]
    · rw [if_neg hx] at h
      simp [hx, ih h]

/-- C7: every per-(platform, kind) store update inside `save_config`
preserves the History invariant.  Given a fresh nonzero minted uuid, if the
latest-id pointer was either the null sentinel or present in the mapping
before the update, the same holds afterwards, and every entry present
before is present after (the mapping only grows). -/
theorem c7_history_invariant (now : String) (u : Nat) (s : RemoteConfigDataWithUUID)
    (item : Json) (s2 : RemoteConfigDataWithUUID)
    (hfresh : ukeyMem s.data u = false)
    (_hnz : u ≠ 0)
    (hinv : s.last_uuid ≠ 0 → ukeyMem s.data s.last_uuid = true)
    (hrun : updateConfigTypeStorage now u s item = .ok s2) :
    (s2.last_uuid ≠ 0 → ukeyMem s2.data s2.last_uuid = true) ∧
      (∀ kv ∈ s.data, kv ∈ s2.data) := by
  cases ha : normJson (lastSavedData s) with
  | error e =>
    unfold updateConfigTypeStorage at hrun
    rw [ha] at hrun
    have hrun2 : (Except.error e : Except String RemoteConfigDataWithUUID) = .ok s2 := hrun
    cases hrun2
  | ok a =>
    cases hb : normJson item with
    | error e =>
      unfold updateConfigTypeStorage at hrun
      rw [ha, hb] at hrun
      have hrun2 : (Except.error e : Except String RemoteConfigDataWithUUID) = .ok s2 := hrun
      cases hrun2
    | ok b =>
      rw [updateCTS_eval now u s item a b ha hb] at hrun
      by_cases heq : pyEq a b = true
      · rw [if_pos heq] at hrun
        injection hrun with h2
        subst h2
        exact ⟨hinv, fun kv hkv => hkv⟩
      · rw [if_neg heq] at hrun
        injection hrun with h2
        subst h2
        refine ⟨fun _ => ukeyMem_ainsert_self s.data u _, ?_⟩
        exact mem_ainsert_of_fresh s.data u _ hfresh

/-- Witness for C7: a concrete store with one entry grows to two entries and
the pointer moves to the fresh uuid. -/
theorem c7_history_invariant_witness :
    updateConfigTypeStorage "t1" 2
        ⟨[(1, ⟨.obj [("v", .str "a")], "t0"⟩)], "t0", 1⟩ (.obj [("v", .str "b")]) =
      .ok ⟨[(1, ⟨.obj [("v", .str "a")], "t0"⟩), (2, ⟨.obj [("v", .str "b")], "t1"⟩)],
           "t1", 2⟩ ∧
    (2 ≠ 0 →
      ukeyMem [(1, (⟨.obj [("v", .str "a")], "t0"⟩ : RemoteConfigData)),
               (2, ⟨.obj [("v", .str "b")], "t1"⟩)] 2 = true) ∧
    (∀ kv ∈ [(1, (⟨.obj [("v", .str "a")], "t0"⟩ : RemoteConfigData))],
      kv ∈ [(1, (⟨.obj [("v", .str "a")], "t0"⟩ : RemoteConfigData)),
            (2, ⟨.obj [("v", .str "b")], "t1"⟩)]) := by
  refine ⟨by rfl, ?_⟩
  have h := c7_history_invariant "t1" 2
    ⟨[(1, ⟨.obj [("v", .str "a")], "t0"⟩)], "t0", 1⟩ (.obj [("v", .str "b")])
    ⟨[(1, ⟨.obj [("v", .str "a")], "t0"⟩), (2, ⟨.obj [("v", .str "b")], "t1"⟩)], "t1", 2⟩
    (by decide) (by decide) (fun _ => by decide) (by rfl)
  exact ⟨h.1, h.2⟩

/-- C9: when the freshly fetched snapshot's normalized form equals the
stored latest entry's normalized form, the store update succeeds and only
the store-level `last_updated` timestamp changes: the id-to-entry mapping,
the latest-id pointer, and every stored entry (in particular its snapshot
data) are unchanged, and the updated store is the value `save_config`
persists. -/
theorem c9_unchanged_refreshes_timestamp_only (now : String) (u : Nat)
    (s : RemoteConfigDataWithUUID) (item : Json) (entry : RemoteConfigData)
    (a b : Json)
    (hmem : ulookup s.data s.last_uuid = some entry)
    (ha : normJson entry.data = .ok a)
    (hb : normJson item = .ok b)
    (heq : pyEq a b = true) :
    updateConfigTypeStorage now u s item =
      .ok { data := s.data, last_updated := now, last_uuid := s.last_uuid } := by
  have hkm : ukeyMem s.data s.last_uuid = true := ukeyMem_of_ulookup hmem
  have hlsd : lastSavedData s = entry.data := by
    unfold lastSavedData
    rw [if_pos (by simp [uuidTruthy, hkm])]
    rw [hmem]
  rw [updateCTS_eval now u s item a b (by rw [hlsd]; exact ha) hb]
  rw [if_pos heq]

/-- Witness for C9: identical snapshot (up to URL-query normalization) only
bumps `last_updated`. -/
theorem c9_unchanged_refreshes_timestamp_only_witness :
    updateConfigTypeStorage "t1" 7
        ⟨[(1, ⟨.obj [("url", .str "http://h/f.zip?sign=A")], "t0"⟩)], "t0", 1⟩
        (.obj [("url", .str "http://h/f.zip?sign=B")]) =
      .ok ⟨[(1, ⟨.obj [("url", .str "http://h/f.zip?sign=A")], "t0"⟩)], "t1", 1⟩ :=
  c9_unchanged_refreshes_timestamp_only "t1" 7
    ⟨[(1, ⟨.obj [("url", .str "http://h/f.zip?sign=A")], "t0"⟩)], "t0", 1⟩
    (.obj [("url", .str "http://h/f.zip?sign=B")])
    ⟨.obj [("url", .str "http://h/f.zip?sign=A")], "t0"⟩
    (.obj [("url", .str "http://h/f.zip")])
    (.obj [("url", .str "http://h/f.zip")])
    (by rfl) (by rfl) (by rfl) (by rfl)

/-! ### `NotificationManager.is_error` and the pydantic validation of
`RemoteConfigError`

`RemoteConfigError` has `code: int = 0`, `reason: str = ""`,
`message: str = ""`.  pydantic v2 `model_validate` in default (lax) mode:
extra keys are ignored, absent keys take their defaults, an `int` field
accepts an `int` (not a `bool`) or a string spelling an integer (modelled:
optional surrounding whitespace, optional sign, digits), and a `str` field
accepts only a `str`.  Validating a non-dict raises, so `is_error` returns
`False` for non-dict values. -/

def Json.isStr : Json → Bool
  | .str _ => true
  | _ => false

def digitsToNat (l : List Char) : Option Nat :=
  if l ≠ [] ∧ l.all Char.isDigit then
    some (l.foldl (fun acc c => acc * 10 + (c.toNat - 48)) 0)
  else none

/-- Python-style integer literal acceptance used by the lax `str -> int`
coercion: optional surrounding whitespace, optional sign, decimal digits. -/
def pyIntOfStr (s : String) : Option Int :=
  let l := s.data.dropWhile (fun c => c.toNat ≤ 32)
  let l := (l.reverse.dropWhile (fun c => c.toNat ≤ 32)).reverse
  match l with
  | '+' :: rest => (digitsToNat rest).map (fun n => (n : Int))
  | '-' :: rest => (digitsToNat rest).map (fun n => -(n : Int))
  | rest => (digitsToNat rest).map (fun n => (n : Int))

def intCoercible : Json → Bool
  | .num _ => true
  | .str s => (pyIntOfStr s).isSome
  | _ => false

/-- `RemoteConfigError.model_validate` succeeds on `j`. -/
def validateRemoteConfigError (j : Json) : Bool :=
  match j with
  | .obj kvs =>
    (match alookup kvs "code" with
     | none => true
     | some v => intCoercible v) &&
    (match alookup kvs "reason" with
     | none => true
     | some v => v.isStr) &&
    (match alookup kvs "message" with
     | none => true
     | some v => v.isStr)
  | _ => false

/-- `NotificationManager.is_error`: try `RemoteConfigError.model_validate`,
return whether it succeeded. -/
def is_error (obj : Json) : Bool := validateRemoteConfigError obj

/-- C10: `is_error` accepts every dict whose `code`/`reason`/`message` keys
are absent or coercible to `int`/`str`/`str` — all three fields have
defaults and extra keys are ignored, so in particular the empty dict and
every ordinary config snapshot dict lacking those keys are classified as a
`RemoteConfigError`. -/
theorem c10_is_error_accepts_defaulted_dicts (d : List (String × Json))
    (hcode : ∀ v, alookup d "code" = some v → intCoercible v = true)
    (hreason : ∀ v, alookup d "reason" = some v → v.isStr = true)
    (hmessage : ∀ v, alookup d "message" = some v → v.isStr = true) :
    is_error (.obj d) = true := by
  have hred : is_error (.obj d) =
      ((match alookup d "code" with
        | none => true
        | some v => intCoercible v) &&
       (match alookup d "reason" with
        | none => true
        | some v => v.isStr) &&
       (match alookup d "message" with
        | none => true
        | some v => v.isStr)) := rfl
  have h1 : (match alookup d "code" with
      | none => true
      | some v => intCoercible v) = true := by
    cases hx : alookup d "code" with
    | none => rfl
    | some v => exact hcode v hx
  have h2 : (match alookup d "reason" with
      | none => true
      | some v => v.isStr) = true := by
    cases hx : alookup d "reason" with
    | none => rfl
    | some v => exact hreason v hx
  have h3 : (match alookup d "message" with
      | none => true
      | some v => v.isStr) = true := by
    cases hx : alookup d "message" with
    | none => rfl
    | some v => exact hmessage v hx
  rw [hred, h1, h2, h3]
  rfl

/-- Witness for C10: the empty dict and a well-typed `NetworkConfig` dump
are both classified as errors; a genuine error body is too. -/
theorem c10_is_error_accepts_defaulted_dicts_witness :
    is_error (.obj []) = true ∧
    is_error (.obj [("hgage", .str ""), ("hggov", .str ""), ("u8root", .str ""),
                    ("gameclose", .bool false), ("netlogurl", .str ""),
                    ("launcherurl", .str "")]) = true ∧
    is_error (.obj [("code", .num 404), ("reason", .str "x"),
                    ("message", .str "m")]) = true :=
  ⟨c10_is_error_accepts_defaulted_dicts []
     (fun v hv => by cases hv) (fun v hv => by cases hv) (fun v hv => by cases hv),
   c10_is_error_accepts_defaulted_dicts _
     (fun v hv => by cases hv) (fun v hv => by cases hv) (fun v hv => by cases hv),
   c10_is_error_accepts_defaulted_dicts _
     (fun v hv => by injection hv with h; rw [← h]; rfl)
     (fun v hv => by injection hv with h; rw [← h]; rfl)
     (fun v hv => by injection hv with h; rw [← h]; rfl)⟩

/-! ### Python `str()`/`repr()` rendering of snapshot values, and the
`OutputFormatter` helpers used by the notification composer.

`repr` of a string is modelled for the printable range: Python picks single
quotes (double quotes only when the text contains a single quote and no
double quote), escapes the backslash, the chosen quote, tab, newline and
carriage return, and renders other control characters as `\xhh`; printable
characters are kept as-is. -/

def hexDigit (n : Nat) : Char :=
  if n < 10 then Char.ofNat (48 + n) else Char.ofNat (87 + n)

def escapeChar (quote : Char) (c : Char) : List Char :=
  if c == '\\' then ['\\', '\\']
  else if c == quote then ['\\', quote]
  else if c == '\t' then ['\\', 't']
  else if c == '\n' then ['\\', 'n']
  else if c == '\r' then ['\\', 'r']
  else if c.toNat < 32 || c.toNat == 127 then
    ['\\', 'x', hexDigit (c.toNat / 16 % 16), hexDigit (c.toNat % 16)]
  else [c]

def pyStrRepr (s : String) : String :=
  let quote : Char :=
    if s.data.contains '\'' && !s.data.contains '"' then '"' else '\''
  String.mk (quote :: (s.data.flatMap (escapeChar quote)) ++ [quote])

def joinSep (sep : String) : List String → String
  | [] => ""
  | [x] => x
  | x :: xs => x ++ sep ++ joinSep sep xs

mutual

def pyRepr : Json → String
  | .null => "None"
  | .bool b => if b then "True" else "False"
  | .num n => toString n
  | .str s => pyStrRepr s
  | .arr xs => "[" ++ joinSep ", " (pyReprList xs) ++ "]"
  | .obj kvs => "\x7b" ++ joinSep ", " (pyReprObj kvs) ++ "\x7d"
termination_by structural x => x

def pyReprList : List Json → List String
  | [] => []
  | x :: xs => pyRepr x :: pyReprList xs
termination_by structural x => x

def pyReprObj : List (String × Json) → List String
  | [] => []
  | (k, v) :: kvs => (pyStrRepr k ++ ": " ++ pyRepr v) :: pyReprObj kvs
termination_by structural x => x

end

/-- Python `str()` (as used by f-string interpolation): strings render as
themselves, everything else as its `repr`. -/
def pyStr : Json → String
  | .str s => s
  | x => pyRepr x

/-! `OutputFormatter` (indent fixed at the call sites' default 2). -/

def format_change (label : String) (oldv newv : Json) : String :=
  "  " ++ label ++ ": " ++ pyStr oldv ++ " → " ++ pyStr newv

def format_new_item (label : String) (v : Json) : String :=
  "  + " ++ label ++ ": " ++ pyStr v

def format_deleted_item (label : String) (v : Json) : String :=
  "  - " ++ label ++ ": " ++ pyStr v

def format_bool (b : Bool) : String := if b then "是" else "否"

/-! ### `NotificationManager.format_dict_changes` (map-shaped diff) -/

/-- Python string comparison: lexicographic by code point. -/
def sortStr (l : List String) : List String :=
  List.insertionSort (fun a b => a ≤ b) l

/-- A key of `new` counts as changed when present in `old` with a value
that compares `!=` under Python equality. -/
def updKey (old : List (String × Json)) (kv : String × Json) : Bool :=
  match alookup old kv.1 with
  | none => false
  | some ov => !pyEq kv.2 ov

def format_dict_changes (old new : List (String × Json)) : String :=
  let update_keys := (new.filter (updKey old)).map (·.1)
  let new_keys := (new.filter (fun kv => !akeyMem old kv.1)).map (·.1)
  let delete_keys := (old.filter (fun kv => !akeyMem new kv.1)).map (·.1)
  let messages :=
    (sortStr update_keys).map
      (fun k => format_change k ((alookup old k).getD .null) ((alookup new k).getD .null)) ++
    (sortStr new_keys).map (fun k => format_new_item k ((alookup new k).getD .null)) ++
    (sortStr delete_keys).map (fun k => format_deleted_item k ((alookup old k).getD .null))
  if messages = [] then "  无变化" else joinSep "\n" messages

theorem akeyMem_true_iff {l : List (String × Json)} {k : String} :
    akeyMem l k = true ↔ ∃ v, (k, v) ∈ l := by
  induction l with
  | nil => simp [akeyMem]
  | cons x xs ih =>
    obtain ⟨k', v'⟩ := x
    unfold akeyMem
    constructor
    · intro h
      rcases Bool.or_eq_true _ _ |>.mp h with h2 | h2
      · have : k' = k := by simpa using h2
        subst this
        exact ⟨v', by simp⟩
      · obtain ⟨v, hv⟩ := ih.mp h2
        exact ⟨v, by simp [hv]⟩
    · rintro ⟨v, hv⟩
      rcases List.mem_cons.mp hv with h2 | h2
      · have h3 : k = k' ∧ v = v' := by
          constructor <;> [exact congrArg Prod.fst h2; exact congrArg Prod.snd h2]
        rw [h3.1]
        simp
      · rw [ih.mpr ⟨v, h2⟩]
        simp

theorem alookup_eq_some_iff {l : List (String × Json)}
    (hn : (l.map Prod.fst).Nodup) {k : String} {v : Json} :
    alookup l k = some v ↔ (k, v) ∈ l := by
  induction l with
  | nil => simp [alookup]
  | cons x xs ih =>
    obtain ⟨k', v'⟩ := x
    simp only [List.map_cons, List.nodup_cons] at hn
    unfold alookup
    by_cases hk : k' = k
    · subst hk
      rw [if_pos (by simp)]
      constructor
      · intro h
        injection h with h
        subst h
        simp
      · intro h
        rcases List.mem_cons.mp h with h2 | h2
        · have h3 : v = v' := congrArg Prod.snd h2
          rw [h3]
        · exfalso
          exact hn.1 (List.mem_map_of_mem Prod.fst h2)
    · rw [if_neg (by simpa using hk)]
      rw [ih hn.2]
      constructor
      · intro h
        exact List.mem_cons_of_mem _ h
      · intro h
        rcases List.mem_cons.mp h with h2 | h2
        · exact absurd (congrArg Prod.fst h2).symm hk
        · exact h2

theorem mem_filter_map_fst {f : (String × Json) → Bool}
    {l : List (String × Json)} {k : String} :
    k ∈ (l.filter f).map Prod.fst ↔ ∃ v, (k, v) ∈ l ∧ f (k, v) = true := by
  constructor
  · intro h
    obtain ⟨x, hx, hfst⟩ := List.mem_map.mp h
    obtain ⟨hm, hf⟩ := List.mem_filter.mp hx
    obtain ⟨k2, v⟩ := x
    cases hfst
    exact ⟨v, hm, hf⟩
  · rintro ⟨v, hm, hf⟩
    exact List.mem_map.mpr ⟨(k, v), List.mem_filter.mpr ⟨hm, hf⟩, rfl⟩

theorem mem_sortStr {l : List String} {k : String} : k ∈ sortStr l ↔ k ∈ l :=
  (List.perm_insertionSort _ l).mem_iff

theorem sorted_sortStr (l : List String) :
    List.Sorted (fun a b => a ≤ b) (sortStr l) :=
  List.sorted_insertionSort _ l

/-- C5: on map-shaped snapshots, `format_dict_changes` classifies per key
into changed (present in both, Python-unequal values), added (only in new)
and removed (only in old), renders each class in lexicographically sorted
key order (changed lines first, then added, then removed), and prints a
fixed no-change marker when all classes are empty. -/
theorem c5_format_dict_changes (old new : List (String × Json))
    (_hold : (old.map Prod.fst).Nodup) (hnew : (new.map Prod.fst).Nodup) :
    ∃ C A R : List String,
      List.Sorted (fun a b => a ≤ b) C ∧
      List.Sorted (fun a b => a ≤ b) A ∧
      List.Sorted (fun a b => a ≤ b) R ∧
      (∀ k, k ∈ C ↔ ∃ ov nv, alookup old k = some ov ∧ alookup new k = some nv ∧
          pyEq nv ov = false) ∧
      (∀ k, k ∈ A ↔ akeyMem new k = true ∧ akeyMem old k = false) ∧
      (∀ k, k ∈ R ↔ akeyMem old k = true ∧ akeyMem new k = false) ∧
      format_dict_changes old new =
        (if (C ++ A ++ R : List String) = [] then "  无变化"
         else joinSep "\n"
           (C.map (fun k =>
              format_change k ((alookup old k).getD .null) ((alookup new k).getD .null)) ++
            A.map (fun k => format_new_item k ((alookup new k).getD .null)) ++
            R.map (fun k => format_deleted_item k ((alookup old k).getD .null)))) := by
  refine ⟨sortStr ((new.filter (updKey old)).map (·.1)),
          sortStr ((new.filter (fun kv => !akeyMem old kv.1)).map (·.1)),
          sortStr ((old.filter (fun kv => !akeyMem new kv.1)).map (·.1)),
          sorted_sortStr _, sorted_sortStr _, sorted_sortStr _, ?_, ?_, ?_, ?_⟩
  · intro k
    rw [mem_sortStr, mem_filter_map_fst]
    constructor
    · rintro ⟨nv, hmem, hf⟩
      unfold updKey at hf
      cases hov : alookup old k with
      | none =>
        rw [hov] at hf
        cases hf
      | some ov =>
        rw [hov] at hf
        refine ⟨ov, nv, rfl, (alookup_eq_some_iff hnew).mpr hmem, ?_⟩
        simpa using hf
    · rintro ⟨ov, nv, hov, hnv, hne⟩
      refine ⟨nv, (alookup_eq_some_iff hnew).mp hnv, ?_⟩
      unfold updKey
      rw [hov]
      simpa using hne
  · intro k
    rw [mem_sortStr, mem_filter_map_fst]
    constructor
    · rintro ⟨nv, hmem, hf⟩
      refine ⟨akeyMem_true_iff.mpr ⟨nv, hmem⟩, ?_⟩
      simpa using hf
    · rintro ⟨hnewk, holdk⟩
      obtain ⟨nv, hnv⟩ := akeyMem_true_iff.mp hnewk
      exact ⟨nv, hnv, by simpa using holdk⟩
  · intro k
    rw [mem_sortStr, mem_filter_map_fst]
    constructor
    · rintro ⟨ov, hmem, hf⟩
      refine ⟨akeyMem_true_iff.mpr ⟨ov, hmem⟩, ?_⟩
      simpa using hf
    · rintro ⟨holdk, hnewk⟩
      obtain ⟨ov, hov⟩ := akeyMem_true_iff.mp holdk
      exact ⟨ov, hov, by simpa using hnewk⟩
  · unfold format_dict_changes
    apply if_congr _ rfl rfl
    simp

/-- Witness for C5 at the claim's own example: old `{a:1, b:2}`, new
`{b:2, c:3}` gives added `{c:3}`, removed `{a:1}`, changed empty. -/
theorem c5_format_dict_changes_witness :
    format_dict_changes [("a", .num 1), ("b", .num 2)]
        [("b", .num 2), ("c", .num 3)] = "  + c: 3\n  - a: 1" ∧
    (∃ C A R : List String,
      List.Sorted (fun a b => a ≤ b) C ∧
      List.Sorted (fun a b => a ≤ b) A ∧
      List.Sorted (fun a b => a ≤ b) R ∧
      (∀ k, k ∈ C ↔ ∃ ov nv,
          alookup [("a", .num 1), ("b", .num 2)] k = some ov ∧
          alookup [("b", .num 2), ("c", .num 3)] k = some nv ∧
          pyEq nv ov = false) ∧
      (∀ k, k ∈ A ↔ akeyMem [("b", .num 2), ("c", .num 3)] k = true ∧
          akeyMem [("a", .num 1), ("b", .num 2)] k = false) ∧
      (∀ k, k ∈ R ↔ akeyMem [("a", .num 1), ("b", .num 2)] k = true ∧
          akeyMem [("b", .num 2), ("c", .num 3)] k = false) ∧
      format_dict_changes [("a", .num 1), ("b", .num 2)] [("b", .num 2), ("c", .num 3)] =
        (if (C ++ A ++ R : List String) = [] then "  无变化"
         else joinSep "\n"
           (C.map (fun k =>
              format_change k ((alookup [("a", .num 1), ("b", .num 2)] k).getD .null)
                ((alookup [("b", .num 2), ("c", .num 3)] k).getD .null)) ++
            A.map (fun k =>
              format_new_item k ((alookup [("b", .num 2), ("c", .num 3)] k).getD .null)) ++
            R.map (fun k =>
              format_deleted_item k
                ((alookup [("a", .num 1), ("b", .num 2)] k).getD .null))))) :=
  ⟨by decide,
   c5_format_dict_changes [("a", .num 1), ("b", .num 2)] [("b", .num 2), ("c", .num 3)]
     (by decide) (by decide)⟩

/-! ### `json.loads` on the embedded config strings

A fuel-indexed recursive-descent parser for the JSON subset the model
carries (objects, arrays, strings with escapes, integers, literals; floats
are not modelled and make the parse fail, like any other undecodable
input).  Fuel dominated by the input length keeps the recursion structural
so the parser evaluates inside the kernel. -/

def isJsonWs (c : Char) : Bool := c == ' ' || c == '\t' || c == '\n' || c == '\r'

def skipWs (l : List Char) : List Char := l.dropWhile isJsonWs

def hexVal (c : Char) : Option Nat :=
  if c.isDigit then some (c.toNat - 48)
  else if 'a' ≤ c && c ≤ 'f' then some (c.toNat - 87)
  else if 'A' ≤ c && c ≤ 'F' then some (c.toNat - 55)
  else none

/-- JSON integer literal: `0`, or a nonzero digit followed by digits; a
following `.`, `e` or `E` (a float, not modelled) fails the parse. -/
def pNat (l : List Char) : Option (Nat × List Char) :=
  let digits := l.takeWhile Char.isDigit
  let rest := l.dropWhile Char.isDigit
  if digits = [] then none
  else if digits.length > 1 ∧ digits.take 1 = ['0'] then none
  else
    match rest with
    | '.' :: _ => none
    | 'e' :: _ => none
    | 'E' :: _ => none
    | _ => (digitsToNat digits).map (fun n => (n, rest))

mutual

def pVal : Nat → List Char → Option (Json × List Char)
  | 0, _ => none
  | fuel + 1, l =>
    match skipWs l with
    | '{' :: rest =>
      (match skipWs rest with
       | '}' :: rest2 => some (.obj [], rest2)
       | rest2 => (pMembers fuel rest2).map (fun p => (.obj p.1, p.2)))
    | '[' :: rest =>
      (match skipWs rest with
       | ']' :: rest2 => some (.arr [], rest2)
       | rest2 => (pElements fuel rest2).map (fun p => (.arr p.1, p.2)))
    | '"' :: rest => (pStr fuel rest).map (fun p => (.str (String.mk p.1), p.2))
    | 't' :: 'r' :: 'u' :: 'e' :: rest => some (.bool true, rest)
    | 'f' :: 'a' :: 'l' :: 's' :: 'e' :: rest => some (.bool false, rest)
    | 'n' :: 'u' :: 'l' :: 'l' :: rest => some (.null, rest)
    | '-' :: rest => (pNat rest).map (fun p => (.num (-(p.1 : Int)), p.2))
    | rest => (pNat rest).map (fun p => (.num (p.1 : Int), p.2))
termination_by structural f => f

def pMembers : Nat → List Char → Option (List (String × Json) × List Char)
  | 0, _ => none
  | fuel + 1, l =>
    match skipWs l with
    | '"' :: rest =>
      match pStr fuel rest with
      | none => none
      | some (k, rest2) =>
        match skipWs rest2 with
        | ':' :: rest3 =>
          match pVal fuel rest3 with
          | none => none
          | some (v, rest4) =>
            match skipWs rest4 with
            | ',' :: rest5 =>
              (pMembers fuel rest5).map (fun p => ((String.mk k, v) :: p.1, p.2))
            | '}' :: rest5 => some ([(String.mk k, v)], rest5)
            | _ => none
        | _ => none
    | _ => none
termination_by structural f => f

def pElements : Nat → List Char → Option (List Json × List Char)
  | 0, _ => none
  | fuel + 1, l =>
    match pVal fuel l with
    | none => none
    | some (v, rest) =>
      match skipWs rest with
      | ',' :: rest2 => (pElements fuel rest2).map (fun p => (v :: p.1, p.2))
      | ']' :: rest2 => some ([v], rest2)
      | _ => none
termination_by structural f => f

def pStr : Nat → List Char → Option (List Char × List Char)
  | 0, _ => none
  | fuel + 1, l =>
    match l with
    | [] => none
    | '"' :: rest => some ([], rest)
    | '\\' :: e :: rest =>
      if e == 'u' then
        match rest with
        | h1 :: h2 :: h3 :: h4 :: rest2 =>
          match hexVal h1, hexVal h2, hexVal h3, hexVal h4 with
          | some a, some b, some c, some d =>
            (pStr fuel rest2).map (fun p =>
              (Char.ofNat (((a * 16 + b) * 16 + c) * 16 + d) :: p.1, p.2))
          | _, _, _, _ => none
        | _ => none
      else
        match
          (if e == '"' then some '"'
           else if e == '\\' then some '\\'
           else if e == '/' then some '/'
           else if e == 'b' then some (Char.ofNat 8)
           else if e == 'f' then some (Char.ofNat 12)
           else if e == 'n' then some '\n'
           else if e == 'r' then some '\r'
           else if e == 't' then some '\t'
           else none) with
        | some c => (pStr fuel rest).map (fun p => (c :: p.1, p.2))
        | none => none
    | c :: rest =>
      if c.toNat < 32 then none
      else (pStr fuel rest).map (fun p => (c :: p.1, p.2))
termination_by structural f => f

end

/-- `json.loads`: parse one value and require only whitespace afterwards. -/
def jsonLoads (s : String) : Option Json :=
  match pVal (s.length + 1) s.data with
  | some (v, rest) => if skipWs rest = [] then some v else none
  | none => none

/-! Python `json.loads` builds real dicts: duplicate keys collapse to the
first occurrence's position with the last occurrence's value, recursively.
-/

def pyDictOf (l : List (String × Json)) : List (String × Json) :=
  l.foldl (fun acc kv => ainsert acc kv.1 kv.2) []

mutual

def jsonDedup : Json → Json
  | .obj kvs => .obj (pyDictOf (jsonDedupEntries kvs))
  | .arr xs => .arr (jsonDedupList xs)
  | .null => .null
  | .bool b => .bool b
  | .num n => .num n
  | .str s => .str s
termination_by structural x => x

def jsonDedupList : List Json → List Json
  | [] => []
  | x :: xs => jsonDedup x :: jsonDedupList xs
termination_by structural x => x

def jsonDedupEntries : List (String × Json) → List (String × Json)
  | [] => []
  | (k, v) :: r => (k, jsonDedup v) :: jsonDedupEntries r
termination_by structural x => x

end

/-- `json.loads`, producing dict-shaped objects. -/
def pyJsonLoads (s : String) : Option Json := (jsonLoads s).map jsonDedup

/-! ### pydantic models of `model.py` used by the notification composer

Validation is pydantic v2 lax mode: extra keys are ignored, absent keys
with defaults validate, `int` accepts ints and integer strings but not
bools, `str` accepts only strings, `list[...]` only lists, nested models
only dicts.  The Lean structures carry just the fields the composer reads
(`LauncherVersion.version`; `ResVersion.resources/configs/res_version`);
validation still checks every declared field. -/

def reqStrField (kvs : List (String × Json)) (key : String) : Bool :=
  match alookup kvs key with
  | some (.str _) => true
  | _ => false

def optField (kvs : List (String × Json)) (key : String) (p : Json → Bool) : Bool :=
  match alookup kvs key with
  | none => true
  | some v => p v

def isStrJson : Json → Bool
  | .str _ => true
  | _ => false

def isObjJson : Json → Bool
  | .obj _ => true
  | _ => false

def isNullOr (p : Json → Bool) (j : Json) : Bool :=
  match j with
  | .null => true
  | v => p v

def strFieldD (kvs : List (String × Json)) (key : String) (dflt : String) : String :=
  match alookup kvs key with
  | some (.str s) => s
  | _ => dflt

def validateResVersionItemB (j : Json) : Bool :=
  match j with
  | .obj kvs => reqStrField kvs "url" && reqStrField kvs "md5" && reqStrField kvs "package_size"
  | _ => false

def validateResourcePkgB (j : Json) : Bool :=
  match j with
  | .obj kvs =>
    (match alookup kvs "packs" with
     | some (.arr xs) => xs.all validateResVersionItemB
     | _ => false) &&
    reqStrField kvs "total_size" && reqStrField kvs "file_path" && reqStrField kvs "url" &&
    reqStrField kvs "md5" && reqStrField kvs "package_size" && reqStrField kvs "file_id" &&
    reqStrField kvs "sub_channel" && reqStrField kvs "game_files_md5"
  | _ => false

structure LauncherVersion where
  version : String
  deriving DecidableEq

def validateLauncherVersion (j : Json) : Option LauncherVersion :=
  match j with
  | .obj kvs =>
    if optField kvs "action" intCoercible && optField kvs "version" isStrJson &&
       optField kvs "request_version" isStrJson &&
       optField kvs "pkg" (isNullOr validateResourcePkgB) &&
       optField kvs "patch" (isNullOr isObjJson) &&
       optField kvs "state" intCoercible && optField kvs "launcher_action" intCoercible
    then some ⟨strFieldD kvs "version" ""⟩ else none
  | _ => none

/-- `safe_convert_to_model(data, LauncherVersion)`: the default instance on
any validation failure. -/
def safeConvertLauncher (j : Json) : LauncherVersion :=
  (validateLauncherVersion j).getD ⟨""⟩

structure ResourceItem where
  name : String
  version : String
  deriving DecidableEq

def validateResourceItem (j : Json) : Option ResourceItem :=
  match j with
  | .obj kvs =>
    if reqStrField kvs "name" && reqStrField kvs "version" && reqStrField kvs "path"
    then some ⟨strFieldD kvs "name" "", strFieldD kvs "version" ""⟩ else none
  | _ => none

def validateResourceList : List Json → Option (List ResourceItem)
  | [] => some []
  | x :: xs =>
    match validateResourceItem x, validateResourceList xs with
    | some r, some rs => some (r :: rs)
    | _, _ => none

structure ResVersion where
  resources : List ResourceItem
  configs : String
  res_version : String
  deriving DecidableEq

def validateResVersion (j : Json) : Option ResVersion :=
  match j with
  | .obj kvs =>
    match (match alookup kvs "resources" with
           | none => some []
           | some (.arr xs) => validateResourceList xs
           | some _ => none) with
    | none => none
    | some rs =>
      if optField kvs "configs" isStrJson && optField kvs "res_version" isStrJson &&
         optField kvs "patch_index_path" isStrJson && optField kvs "domain" isStrJson
      then some ⟨rs, strFieldD kvs "configs" "", strFieldD kvs "res_version" ""⟩ else none
  | _ => none

def safeConvertResVersion (j : Json) : ResVersion := (validateResVersion j).getD ⟨[], "", ""⟩

/-- pydantic v2 lax coercion to `bool`. -/
def pyBoolLax (j : Json) : Option Bool :=
  match j with
  | .bool b => some b
  | .num 0 => some false
  | .num 1 => some true
  | .str s =>
    let t := String.mk (s.data.map Char.toLower)
    if t ∈ ["true", "t", "yes", "y", "on", "1"] then some true
    else if t ∈ ["false", "f", "no", "n", "off", "0"] then some false
    else none
  | _ => none

/-- `ResVersion.get_parsed_configs().kick_flag`: decode errors and
validation errors (pydantic's `ValidationError` subclasses `ValueError`,
so the `except` catches it) both fall back to the default `False`. -/
def parsedKickFlag (configs : String) : Bool :=
  match pyJsonLoads configs with
  | some (.obj kvs) =>
    (match alookup kvs "kick_flag" with
     | none => some false
     | some v => pyBoolLax v).getD false
  | _ => false

/-! ### The per-kind generic formatters of `_build_single_update_content` -/

def lookupS (l : List (String × String)) (k : String) : Option String :=
  match l with
  | [] => none
  | (k', v) :: rest => if k' == k then some v else lookupS rest k

/-- `{r.name: r.version for r in resources}` — dict comprehension: first
occurrence's position, last occurrence's value. -/
def resourcesDict (rs : List ResourceItem) : List (String × String) :=
  rs.foldl (fun acc r => ainsert acc r.name r.version) []

/-- Python `s or "无"`: the empty string is falsy. -/
def orWu (s : String) : String := if s = "" then "无" else s

/-- The `res_version` branch content: version line, kick-flag line,
per-resource lines, joined; empty when nothing changed. -/
def resVersionContent (old new : Json) : String :=
  let om := safeConvertResVersion old
  let nm := safeConvertResVersion new
  let c1 : List String :=
    if nm.res_version ≠ om.res_version then
      [format_change "资源版本" (.str (orWu om.res_version)) (.str (orWu nm.res_version))]
    else []
  let ok := parsedKickFlag om.configs
  let nk := parsedKickFlag nm.configs
  let c2 : List String :=
    if ok ≠ nk then
      [format_change "踢出标记" (.str (format_bool ok)) (.str (format_bool nk))]
    else []
  let oldR := resourcesDict om.resources
  let newR := resourcesDict nm.resources
  let c3 : List String :=
    (newR.filter (fun kv => lookupS oldR kv.1 ≠ some kv.2)).map
      (fun kv =>
        format_change ("资源[" ++ kv.1 ++ "]")
          (.str (orWu ((lookupS oldR kv.1).getD ""))) (.str kv.2))
  let changes := c1 ++ c2 ++ c3
  if changes = [] then "" else joinSep "\n" changes

def jsonTruthy : Json → Bool
  | .null => false
  | .bool b => b
  | .num n => n != 0
  | .str s => !(s == "")
  | .arr xs => !xs.isEmpty
  | .obj kvs => !kvs.isEmpty

/-- `json.loads(x) if x else {}` where `x` came from `.get("Configs", "{}")`:
falsy values skip the parse, non-string truthy values raise `TypeError`
(not caught — the `except` only names `JSONDecodeError`). -/
def engineStrOfConfigsField (v : Json) : Except String (Option String) :=
  if jsonTruthy v then
    match v with
    | .str s => .ok (some s)
    | _ => .error "TypeError: the JSON object must be str, bytes or bytearray"
  else .ok none

/-- The shared `try`: a decode error in either load resets **both** dicts
to `{}`. -/
def engineParsePair (ov nv : Option String) : Json × Json :=
  let po := match ov with
    | none => some (.obj [])
    | some s => pyJsonLoads s
  let pn := match nv with
    | none => some (.obj [])
    | some s => pyJsonLoads s
  match po, pn with
  | some a, some b => (a, b)
  | _, _ => (.obj [], .obj [])

/-- `.keys()` on a non-dict raises `AttributeError` (uncaught). -/
def asObjEntries : Json → Except String (List (String × Json))
  | .obj kvs => .ok kvs
  | _ => .error "AttributeError"

/-- `_format_engine_config_changes`.  `sorted` over the key sets is
modelled by `sortStr` over key lists; the inputs are dict-shaped (parsed
JSON / snapshot dumps), so keys are unique and the two agree. -/
def format_engine_config_changes (old new : Json) : Except String String := do
  let o ← asObjEntries old
  let n ← asObjEntries new
  let os ← engineStrOfConfigsField ((alookup o "Configs").getD (.str "\x7b\x7d"))
  let ns ← engineStrOfConfigsField ((alookup n "Configs").getD (.str "\x7b\x7d"))
  let (oj, nj) := engineParsePair os ns
  let oc ← asObjEntries oj
  let nc ← asObjEntries nj
  let oldVersion := (alookup o "Version").getD (.num 0)
  let newVersion := (alookup n "Version").getD (.num 0)
  let m1 : List String :=
    if !pyEq oldVersion newVersion then [format_change "Version" oldVersion newVersion] else []
  let okeys := oc.map (·.1)
  let nkeys := nc.map (·.1)
  let m2 := (sortStr (nkeys.filter (fun k => !okeys.contains k))).map
    (fun k => format_new_item k (.str "新增配置项"))
  let m3 := (sortStr (okeys.filter (fun k => !nkeys.contains k))).map
    (fun k => format_deleted_item k (.str "已移除"))
  let m4 := ((sortStr (okeys.filter (fun k => nkeys.contains k))).filter
      (fun k => !pyEq ((alookup oc k).getD .null) ((alookup nc k).getD .null))).map
    (fun k => format_change k (.str "已修改") (.str "详见配置"))
  let messages := m1 ++ m2 ++ m3 ++ m4
  pure (if messages = [] then "  无变化" else joinSep "\n" messages)

/-- `format_dict_changes` is only reached with dict-shaped data;
`.items()` on anything else raises `AttributeError`. -/
def formatDictChangesJ (old new : Json) : Except String String :=
  match old, new with
  | .obj o, .obj n => .ok (format_dict_changes o n)
  | _, _ => .error "AttributeError"

/-! ### `json.dumps(data, indent=2, ensure_ascii=False)` -/

def hexDigitCh (n : Nat) : Char :=
  if n < 10 then Char.ofNat (48 + n) else Char.ofNat (87 + n)

def jsonEscChar (c : Char) : List Char :=
  if c = '"' then ['\\', '"']
  else if c = '\\' then ['\\', '\\']
  else if c = '\n' then ['\\', 'n']
  else if c = '\t' then ['\\', 't']
  else if c = '\r' then ['\\', 'r']
  else if c = Char.ofNat 8 then ['\\', 'b']
  else if c = Char.ofNat 12 then ['\\', 'f']
  else if c.toNat < 32 then
    ['\\', 'u', '0', '0', hexDigitCh (c.toNat / 16), hexDigitCh (c.toNat % 16)]
  else [c]

def jsonQuote (s : String) : String :=
  String.mk ('"' :: s.data.flatMap jsonEscChar ++ ['"'])

def indentOf (n : Nat) : String := String.mk (List.replicate (2 * n) ' ')

mutual

def dumpsVal : Nat → Json → String
  | _, .null => "null"
  | _, .bool b => if b then "true" else "false"
  | _, .num n => toString n
  | _, .str s => jsonQuote s
  | _, .arr [] => "[]"
  | lvl, .arr (x :: xs) =>
    "[\n" ++ indentOf (lvl + 1) ++ dumpsVal (lvl + 1) x ++ dumpsArrRest (lvl + 1) xs ++
      "\n" ++ indentOf lvl ++ "]"
  | _, .obj [] => "\x7b\x7d"
  | lvl, .obj ((k, v) :: kvs) =>
    "\x7b\n" ++ indentOf (lvl + 1) ++ jsonQuote k ++ ": " ++ dumpsVal (lvl + 1) v ++
      dumpsObjRest (lvl + 1) kvs ++ "\n" ++ indentOf lvl ++ "\x7d"
termination_by structural _ x => x

def dumpsArrRest : Nat → List Json → String
  | _, [] => ""
  | lvl, x :: xs => ",\n" ++ indentOf lvl ++ dumpsVal lvl x ++ dumpsArrRest lvl xs
termination_by structural _ x => x

def dumpsObjRest : Nat → List (String × Json) → String
  | _, [] => ""
  | lvl, (k, v) :: kvs =>
    ",\n" ++ indentOf lvl ++ jsonQuote k ++ ": " ++ dumpsVal lvl v ++ dumpsObjRest lvl kvs
termination_by structural _ x => x

end

def pyJsonDumpsIndent2 (j : Json) : String := dumpsVal 0 j

/-! ### `_build_error_message` and `_get_data_representation` -/

/-- `f"{code} - {reason} - {message}"` after `RemoteConfigError.model_validate`
(lax coercions applied); callers guard with `is_error`, so the defaults
stand in for the unreachable invalid cases. -/
def buildErrorMessage (d : Json) : String :=
  match d with
  | .obj kvs =>
    let code : Int :=
      match alookup kvs "code" with
      | some (.num n) => n
      | some (.str s) => (pyIntOfStr s).getD 0
      | _ => 0
    toString code ++ " - " ++ strFieldD kvs "reason" "" ++ " - " ++ strFieldD kvs "message" ""
  | _ => "0 -  - "

def getDataRepresentation (d : Json) : String :=
  if is_error d then buildErrorMessage d
  else
    match d with
    | .null => "无数据"
    | .obj _ => pyJsonDumpsIndent2 d
    | x => pyStr x

/-! ### `UpdateConfig` (config.py) and the notification composer -/

inductive UpdatePriority where
  | critical
  | high
  | medium
  | low
  deriving DecidableEq

def PRIORITY_MAP : List (String × UpdatePriority) :=
  [("launcher_version", .low), ("res_version", .critical), ("engine_config", .low),
   ("game_config", .medium), ("network_config", .high)]

def get_priority (update_type : String) : UpdatePriority :=
  (PRIORITY_MAP.lookup update_type).getD .low

def PRIORITY_ICONS : List (UpdatePriority × String) :=
  [(.critical, "🚨"), (.high, "⚡"), (.medium, "📢"), (.low, "ℹ️")]

def get_icon (p : UpdatePriority) : String := (PRIORITY_ICONS.lookup p).getD "📝"

/-- `UpdateConfig.priority_order.index p` for
`priority_order = [CRITICAL, HIGH, MEDIUM, LOW]`. -/
def priorityIdx : UpdatePriority → Nat
  | .critical => 0
  | .high => 1
  | .medium => 2
  | .low => 3

inductive Platform where
  | default
  | windows
  | android
  | ios
  | playstation
  deriving DecidableEq

structure ConfigUpdate where
  old : Json
  new : Json
  updated : Bool
  deriving DecidableEq

structure UpdateCheckResult where
  network_config : ConfigUpdate
  game_config : ConfigUpdate
  res_version : ConfigUpdate
  engine_config : ConfigUpdate
  launcher_version : ConfigUpdate
  platform : Platform
  is_first_init : Bool
  deriving DecidableEq

/-- One notification dict of `_build_single_update_content`. -/
structure UpdateItem where
  type : String
  priority : UpdatePriority
  title : String
  content : String
  deriving DecidableEq

/-- The `not is_old_error and not is_new_error` branch's per-kind content. -/
def genericContent (attr : String) (old new : Json) : Except String String :=
  if attr == "launcher_version" then
    .ok (format_change "版本" (.str (safeConvertLauncher old).version)
          (.str (safeConvertLauncher new).version))
  else if attr == "res_version" then .ok (resVersionContent old new)
  else if attr == "engine_config" then format_engine_config_changes old new
  else if attr == "game_config" || attr == "network_config" then formatDictChangesJ old new
  else .ok ""

/-- The loop body of `_build_single_update_content` for one
`(attr_name, title_prefix)` pair. -/
def buildSingleItem (attr titlePfx : String) (u : ConfigUpdate) : Except String (List UpdateItem) :=
  if !u.updated then .ok []
  else
    let isOldErr := is_error u.old
    let isNewErr := is_error u.new
    if !isOldErr && isNewErr then
      .ok [⟨"error_detected", get_priority "error_detected", titlePfx ++ " - 检测到错误",
            "  原配置正常\n  新状态: 错误\n  " ++ getDataRepresentation u.new⟩]
    else if isOldErr && !isNewErr then
      .ok [⟨"error_resolved", get_priority "error_resolved", titlePfx ++ " - 错误已解决",
            "  配置已恢复正常"⟩]
    else if isOldErr && isNewErr then
      if !pyEq u.old u.new then
        .ok [⟨"error_detected", get_priority "error_detected", titlePfx ++ " - 错误详情更新",
              "  " ++ getDataRepresentation u.new⟩]
      else .ok []
    else do
      let content ← genericContent attr u.old u.new
      if content ≠ "" then
        pure [⟨attr, get_priority attr, titlePfx, content⟩]
      else pure []

/-- `_build_single_update_content`: the five kinds in `update_types_info`
order — launcher, res, engine, game, network. -/
def buildSingleUpdateContent (r : UpdateCheckResult) : Except String (List UpdateItem) := do
  let l1 ← buildSingleItem "launcher_version" "客户端版本更新" r.launcher_version
  let l2 ← buildSingleItem "res_version" "资源版本更新" r.res_version
  let l3 ← buildSingleItem "engine_config" "引擎配置更新" r.engine_config
  let l4 ← buildSingleItem "game_config" "游戏配置更新" r.game_config
  let l5 ← buildSingleItem "network_config" "网络配置更新" r.network_config
  pure (l1 ++ l2 ++ l3 ++ l4 ++ l5)

def SEPARATOR : String := "━━━━━━━━━━━━━━━━━━━━━━━━"

/-- One insertion step of CPython's stable sort by
`priority_order.index(x["priority"])`: `x` goes after every element whose
key is `≤` its own. -/
def sortItemsInsert (x : UpdateItem) : List UpdateItem → List UpdateItem
  | [] => [x]
  | y :: ys =>
    if priorityIdx y.priority ≤ priorityIdx x.priority then y :: sortItemsInsert x ys
    else x :: y :: ys

/-- `updates_list.sort(key=lambda x: priority_order.index(x["priority"]))`
as a stable insertion sort. -/
def sortItems (l : List UpdateItem) : List UpdateItem :=
  l.foldl (fun acc x => sortItemsInsert x acc) []

def renderItem (u : UpdateItem) : String :=
  get_icon u.priority ++ " " ++ u.title ++ "\n" ++ u.content

def build_update_message (platform_name : String) (updates_list : List UpdateItem) : String :=
  if updates_list = [] then ""
  else
    let s := sortItems updates_list
    let header_icon :=
      match s with
      | [] => ""
      | u :: _ => get_icon u.priority
    header_icon ++ " 检测到 " ++ platform_name ++ " 终末地更新" ++ "\n" ++ SEPARATOR ++ "\n" ++
      joinSep "\n\n" (s.map renderItem) ++ "\n" ++ SEPARATOR

/-- Python `max(l, key=...)`: first element attaining the maximum (a later
element replaces the running best only when strictly greater). -/
def maxByPriority : List UpdateItem → Option UpdateItem
  | [] => none
  | x :: xs =>
    some (xs.foldl (fun best u =>
      if priorityIdx best.priority < priorityIdx u.priority then u else best) x)

/-- Header icon of the cross-platform grouped path in
`send_update_notifications` (`max([]) ` raises; that path only runs on a
platform that produced at least one item). -/
def consolidatedHeaderIcon (l : List UpdateItem) : String :=
  match maxByPriority l with
  | some u => get_icon u.priority
  | none => ""

/-! ### C2: error-transition rendering -/

def c2OldData : Json :=
  .obj [("resources", .arr []), ("configs", .str ""), ("res_version", .str "v1"),
        ("patch_index_path", .str ""), ("domain", .str "")]

def c2NewData : Json := .obj [("code", .num 404), ("reason", .str "x"), ("message", .str "m")]

def c2NoUpdate : ConfigUpdate := ⟨.obj [], .obj [], false⟩

/-- `res_version` transitions from a well-typed `ResVersion` dump to a
`RemoteConfigError` dump. -/
def c2Result : UpdateCheckResult :=
  ⟨c2NoUpdate, c2NoUpdate, ⟨c2OldData, c2NewData, true⟩, c2NoUpdate, c2NoUpdate,
   .windows, false⟩

/-- The reverse transition: error dump back to the well-typed dump. -/
def c2ResultRev : UpdateCheckResult :=
  ⟨c2NoUpdate, c2NoUpdate, ⟨c2NewData, c2OldData, true⟩, c2NoUpdate, c2NoUpdate,
   .windows, false⟩

/-- C2: the claim fails in the code.  The old snapshot is a well-typed
`ResVersion` value (third conjunct) whose dump lacks `code`/`reason`/
`message`, so `is_error` classifies it as a `RemoteConfigError` too; the
well-typed → error transition therefore lands in the both-sides-error
branch and renders the "错误详情更新" (error-detail-changed) template
instead of the dedicated "检测到错误" (newly-erroring) one (first
conjunct), and the error → well-typed transition renders "错误详情更新"
instead of "错误已解决" (error-resolved) as well (second conjunct). -/
theorem c2_error_transition_code_bug :
    buildSingleUpdateContent c2Result =
      .ok [⟨"error_detected", .low, "资源版本更新 - 错误详情更新", "  404 - x - m"⟩] ∧
    buildSingleUpdateContent c2ResultRev =
      .ok [⟨"error_detected", .low, "资源版本更新 - 错误详情更新", "  0 -  - "⟩] ∧
    validateResVersion c2OldData = some ⟨[], "", "v1"⟩ ∧
    is_error c2OldData = true := by
  refine ⟨rfl, rfl, rfl, rfl⟩

/-! ### C6: priority sorting and the message header -/

/-- Spec-side description of the sorted order: the four priority classes
concatenated, each keeping the original (stable) order. -/
def classesByPriority (l : List UpdateItem) : List UpdateItem :=
  l.filter (fun u => u.priority == .critical) ++ l.filter (fun u => u.priority == .high) ++
    l.filter (fun u => u.priority == .medium) ++ l.filter (fun u => u.priority == .low)

/-- Spec-side description of the rendered message over an already-ordered
item list. -/
def renderFromClasses (platform_name : String) (cs : List UpdateItem) : String :=
  (match cs with
   | [] => ""
   | u :: _ => get_icon u.priority) ++ " 检测到 " ++ platform_name ++ " 终末地更新" ++ "\n" ++
    SEPARATOR ++ "\n" ++ joinSep "\n\n" (cs.map renderItem) ++ "\n" ++ SEPARATOR

theorem mem_filter_priority {l : List UpdateItem} {p : UpdatePriority} {u : UpdateItem}
    (h : u ∈ l.filter (fun v => v.priority == p)) : u.priority = p := by
  have := List.mem_filter.mp h
  simpa using this.2

theorem sortItemsInsert_append_le (x : UpdateItem) (A B : List UpdateItem)
    (hA : ∀ y ∈ A, priorityIdx y.priority ≤ priorityIdx x.priority) :
    sortItemsInsert x (A ++ B) = A ++ sortItemsInsert x B := by
  induction A with
  | nil => rfl
  | cons a as ih =>
    have ha : priorityIdx a.priority ≤ priorityIdx x.priority := hA a (by simp)
    simp only [List.cons_append, sortItemsInsert, if_pos ha]
    show a :: sortItemsInsert x (as ++ B) = a :: (as ++ sortItemsInsert x B)
    rw [ih (fun y hy => hA y (by simp [hy]))]

theorem sortItemsInsert_all_gt (x : UpdateItem) (B : List UpdateItem)
    (hB : ∀ y ∈ B, priorityIdx x.priority < priorityIdx y.priority) :
    sortItemsInsert x B = x :: B := by
  cases B with
  | nil => rfl
  | cons b bs =>
    have hb : ¬ priorityIdx b.priority ≤ priorityIdx x.priority := by
      have := hB b (by simp)
      omega
    simp [sortItemsInsert, hb]

theorem sortItemsInsert_all_le (x : UpdateItem) (B : List UpdateItem)
    (hB : ∀ y ∈ B, priorityIdx y.priority ≤ priorityIdx x.priority) :
    sortItemsInsert x B = B ++ [x] := by
  induction B with
  | nil => rfl
  | cons b bs ih =>
    simp only [sortItemsInsert, if_pos (hB b (by simp)), List.cons_append]
    show b :: sortItemsInsert x bs = b :: (bs ++ [x])
    rw [ih (fun y hy => hB y (by simp [hy]))]

theorem class_le {l : List UpdateItem} {p : UpdatePriority} {n : Nat}
    (h : priorityIdx p ≤ n) :
    ∀ y ∈ l.filter (fun v => v.priority == p), priorityIdx y.priority ≤ n := by
  intro y hy
  rw [mem_filter_priority hy]
  exact h

theorem class_gt {l : List UpdateItem} {p : UpdatePriority} {n : Nat}
    (h : n < priorityIdx p) :
    ∀ y ∈ l.filter (fun v => v.priority == p), n < priorityIdx y.priority := by
  intro y hy
  rw [mem_filter_priority hy]
  exact h

theorem sortItemsInsert_classes (x : UpdateItem) (l : List UpdateItem) :
    sortItemsInsert x (classesByPriority l) = classesByPriority (l ++ [x]) := by
  obtain ⟨t, p, ti, c⟩ := x
  cases p
  case critical =>
    simp only [classesByPriority, List.filter_append, List.filter, List.append_assoc]
    simp only [show (UpdatePriority.critical == UpdatePriority.critical) = true from rfl,
      show (UpdatePriority.critical == UpdatePriority.high) = false from rfl,
      show (UpdatePriority.critical == UpdatePriority.medium) = false from rfl,
      show (UpdatePriority.critical == UpdatePriority.low) = false from rfl,
      List.append_nil]
    rw [sortItemsInsert_append_le _ _ _ (class_le (by simp [priorityIdx])),
      sortItemsInsert_all_gt _ _
        (List.forall_mem_append.mpr ⟨class_gt (by simp [priorityIdx]),
          List.forall_mem_append.mpr ⟨class_gt (by simp [priorityIdx]), class_gt (by simp [priorityIdx])⟩⟩)]
    simp
  case high =>
    simp only [classesByPriority, List.filter_append, List.filter, List.append_assoc]
    simp only [show (UpdatePriority.high == UpdatePriority.critical) = false from rfl,
      show (UpdatePriority.high == UpdatePriority.high) = true from rfl,
      show (UpdatePriority.high == UpdatePriority.medium) = false from rfl,
      show (UpdatePriority.high == UpdatePriority.low) = false from rfl,
      List.append_nil]
    rw [sortItemsInsert_append_le _ _ _ (class_le (by simp [priorityIdx])),
      sortItemsInsert_append_le _ _ _ (class_le (by simp [priorityIdx])),
      sortItemsInsert_all_gt _ _
        (List.forall_mem_append.mpr ⟨class_gt (by simp [priorityIdx]), class_gt (by simp [priorityIdx])⟩)]
    simp
  case medium =>
    simp only [classesByPriority, List.filter_append, List.filter, List.append_assoc]
    simp only [show (UpdatePriority.medium == UpdatePriority.critical) = false from rfl,
      show (UpdatePriority.medium == UpdatePriority.high) = false from rfl,
      show (UpdatePriority.medium == UpdatePriority.medium) = true from rfl,
      show (UpdatePriority.medium == UpdatePriority.low) = false from rfl,
      List.append_nil]
    rw [sortItemsInsert_append_le _ _ _ (class_le (by simp [priorityIdx])),
      sortItemsInsert_append_le _ _ _ (class_le (by simp [priorityIdx])),
      sortItemsInsert_append_le _ _ _ (class_le (by simp [priorityIdx])),
      sortItemsInsert_all_gt _ _ (class_gt (by simp [priorityIdx]))]
    simp
  case low =>
    simp only [classesByPriority, List.filter_append, List.filter, List.append_assoc]
    simp only [show (UpdatePriority.low == UpdatePriority.critical) = false from rfl,
      show (UpdatePriority.low == UpdatePriority.high) = false from rfl,
      show (UpdatePriority.low == UpdatePriority.medium) = false from rfl,
      show (UpdatePriority.low == UpdatePriority.low) = true from rfl,
      List.append_nil]
    rw [sortItemsInsert_all_le _ _
      (List.forall_mem_append.mpr ⟨class_le (by simp [priorityIdx]),
        List.forall_mem_append.mpr ⟨class_le (by simp [priorityIdx]),
          List.forall_mem_append.mpr ⟨class_le (by simp [priorityIdx]), class_le (by simp [priorityIdx])⟩⟩⟩)]
    simp

theorem sortItems_eq_classes (l : List UpdateItem) : sortItems l = classesByPriority l := by
  induction l using List.reverseRecOn with
  | nil => rfl
  | append_singleton xs x ih =>
    have hfold : sortItems (xs ++ [x]) = sortItemsInsert x (sortItems xs) := by
      simp [sortItems, List.foldl_append]
    rw [hfold, ih, sortItemsInsert_classes]

/-- Python `max(xs, key=priorityIdx ∘ priority)` returns an element of the
list whose key no other element exceeds (the first such, by strict
replacement). -/
theorem maxByPriority_spec (x : UpdateItem) (xs : List UpdateItem) :
    ∃ u, maxByPriority (x :: xs) = some u ∧ (u = x ∨ u ∈ xs) ∧
      priorityIdx x.priority ≤ priorityIdx u.priority ∧
      ∀ v ∈ xs, priorityIdx v.priority ≤ priorityIdx u.priority := by
  induction xs generalizing x with
  | nil => exact ⟨x, rfl, Or.inl rfl, Nat.le_refl _, by simp⟩
  | cons y ys ih =>
    have hstep : maxByPriority (x :: y :: ys) =
        maxByPriority ((if priorityIdx x.priority < priorityIdx y.priority then y else x) :: ys) := by
      simp [maxByPriority, List.foldl_cons]
    obtain ⟨u, hu, hmem, hle, hall⟩ :=
      ih (if priorityIdx x.priority < priorityIdx y.priority then y else x)
    refine ⟨u, hstep.trans hu, ?_, ?_, ?_⟩
    · by_cases hc : priorityIdx x.priority < priorityIdx y.priority
      · rcases hmem with h | h
        · right
          rw [if_pos hc] at h
          simp [h]
        · right
          simp [h]
      · rcases hmem with h | h
        · left
          rwa [if_neg hc] at h
        · right
          simp [h]
    · by_cases hc : priorityIdx x.priority < priorityIdx y.priority
      · rw [if_pos hc] at hle
        omega
      · rwa [if_neg hc] at hle
    · intro v hv
      rcases List.mem_cons.mp hv with rfl | hv
      · by_cases hc : priorityIdx x.priority < priorityIdx v.priority
        · rwa [if_pos hc] at hle
        · rw [if_neg hc] at hle
          omega
      · exact hall v hv

def c6NoUpdate : ConfigUpdate := ⟨.obj [], .obj [], false⟩

/-- Launcher and engine snapshots made non-error by a non-coercible
`code` key, so the generic formatters run. -/
def c6Result : UpdateCheckResult :=
  ⟨c6NoUpdate, c6NoUpdate, c6NoUpdate,
   ⟨.obj [("Version", .num 1), ("code", .str "bad")],
    .obj [("Version", .num 2), ("code", .str "bad")], true⟩,
   ⟨.obj [("version", .str "1.0"), ("code", .str "bad")],
    .obj [("version", .str "2.0"), ("code", .str "bad")], true⟩,
   .windows, false⟩

def c6LauncherItem : UpdateItem :=
  ⟨"launcher_version", .low, "客户端版本更新", "  版本: 1.0 → 2.0"⟩

def c6EngineItem : UpdateItem :=
  ⟨"engine_config", .low, "引擎配置更新", "  Version: 1 → 2"⟩

/-- C6: counterexample to the claimed priority order.  The real tiers are
`res_version` = CRITICAL > `network_config` = HIGH > `game_config` =
MEDIUM > `engine_config` = `launcher_version` = LOW (conjuncts 4–6): game
and engine settings do **not** share a tier, and the engine item does not
rank above the launcher item — the sort is stable and the builder emits
launcher before engine, so a launcher+engine update renders the launcher
section first (conjuncts 1–2), not the engine section first as the claimed
order (engine above lowest-tier launcher) would (conjunct 3). -/
theorem c6_claim_counterexample :
    buildSingleUpdateContent c6Result = .ok [c6LauncherItem, c6EngineItem] ∧
    build_update_message "Windows 端" [c6LauncherItem, c6EngineItem] =
      "ℹ️ 检测到 Windows 端 终末地更新\n━━━━━━━━━━━━━━━━━━━━━━━━\nℹ️ 客户端版本更新\n  版本: 1.0 → 2.0\n\nℹ️ 引擎配置更新\n  Version: 1 → 2\n━━━━━━━━━━━━━━━━━━━━━━━━" ∧
    "ℹ️ 检测到 Windows 端 终末地更新\n━━━━━━━━━━━━━━━━━━━━━━━━\nℹ️ 客户端版本更新\n  版本: 1.0 → 2.0\n\nℹ️ 引擎配置更新\n  Version: 1 → 2\n━━━━━━━━━━━━━━━━━━━━━━━━" ≠
      "ℹ️ 检测到 Windows 端 终末地更新\n━━━━━━━━━━━━━━━━━━━━━━━━\nℹ️ 引擎配置更新\n  Version: 1 → 2\n\nℹ️ 客户端版本更新\n  版本: 1.0 → 2.0\n━━━━━━━━━━━━━━━━━━━━━━━━" ∧
    get_priority "res_version" = .critical ∧
    get_priority "network_config" = .high ∧
    get_priority "game_config" = .medium ∧
    get_priority "engine_config" = .low ∧
    get_priority "launcher_version" = .low := by
  refine ⟨rfl, rfl, by decide, rfl, rfl, rfl, rfl, rfl⟩

/-- C6 (amended): for every non-empty item list, `build_update_message`
renders the items grouped into the four priority classes in the real
order CRITICAL, HIGH, MEDIUM, LOW — each class keeping the original
(stable) order — headed by the icon of the first item of that
concatenation, i.e. of the highest-priority class present; and in the
cross-platform grouped path the consolidated header icon is the icon of
an item of the list whose priority index no other item exceeds. -/
theorem c6_build_update_message_amended (platform_name : String) (l : List UpdateItem)
    (h : l ≠ []) :
    build_update_message platform_name l =
      renderFromClasses platform_name (classesByPriority l) ∧
    ∃ u ∈ l, consolidatedHeaderIcon l = get_icon u.priority ∧
      ∀ v ∈ l, priorityIdx v.priority ≤ priorityIdx u.priority := by
  constructor
  · simp only [build_update_message, renderFromClasses, if_neg h, sortItems_eq_classes]
  · obtain ⟨x, xs, rfl⟩ : ∃ x xs, l = x :: xs := by
      cases l with
      | nil => exact absurd rfl h
      | cons a as => exact ⟨a, as, rfl⟩
    obtain ⟨u, hu, hmem, hle, hall⟩ := maxByPriority_spec x xs
    refine ⟨u, ?_, ?_, ?_⟩
    · rcases hmem with rfl | h2
      · simp
      · simp [h2]
    · simp [consolidatedHeaderIcon, hu]
    · intro v hv
      rcases List.mem_cons.mp hv with rfl | hv2
      · exact hle
      · exact hall v hv2

def c6WitnessList : List UpdateItem :=
  [⟨"launcher_version", .low, "客户端版本更新", "c1"⟩,
   ⟨"network_config", .high, "网络配置更新", "c2"⟩]

theorem c6_build_update_message_amended_witness :
    build_update_message "Windows 端" c6WitnessList =
      renderFromClasses "Windows 端" (classesByPriority c6WitnessList) ∧
    ∃ u ∈ c6WitnessList, consolidatedHeaderIcon c6WitnessList = get_icon u.priority ∧
      ∀ v ∈ c6WitnessList, priorityIdx v.priority ≤ priorityIdx u.priority :=
  c6_build_update_message_amended "Windows 端" c6WitnessList (by decide)

/-! ### `UpdateChecker`: fetch, per-platform storage and the scheduled tick

Network and async behaviour is an oracle input: each `_fetch_single_config`
outcome is an `Option Json` (`none` = network failure / undecodable body /
unexpected error — the `return None` paths; `some v` = the decoded,
model-validated-and-dumped or raw value, never `None` in Python, hence
never `Json.null` here), and whether the dependent-parameter chain
(`_extract_fetch_params`) resolved is a `Bool`. -/

structure PlatformLocalConfig where
  network_config : RemoteConfigDataWithUUID
  res_version : RemoteConfigDataWithUUID
  engine_config : RemoteConfigDataWithUUID
  game_config : RemoteConfigDataWithUUID
  launcher_version : RemoteConfigDataWithUUID
  deriving DecidableEq

structure RemoteConfigLocalStorage where
  version : String
  platforms : List (Platform × PlatformLocalConfig)
  deriving DecidableEq

def glookup {κ α : Type} [BEq κ] (l : List (κ × α)) (k : κ) : Option α :=
  match l with
  | [] => none
  | (k', v) :: rest => if k' == k then some v else glookup rest k

/-- `_create_empty_platform_config`: empty histories with `UUID(int=0)`. -/
def createEmptyPlatformConfig : PlatformLocalConfig :=
  ⟨⟨[], "", 0⟩, ⟨[], "", 0⟩, ⟨[], "", 0⟩, ⟨[], "", 0⟩, ⟨[], "", 0⟩⟩

/-- The snapshot values of one fetch cycle, already in dumped (JSON) form. -/
structure RemoteConfigRemoteData where
  network_config : Json
  res_version : Json
  engine_config : Json
  launcher_version : Json
  game_config : Json
  deriving DecidableEq

structure FetchOracle where
  launcher_version : Option Json
  engine_config : Option Json
  network_config : Option Json
  game_config : Option Json
  res_version : Option Json
  fetch_params : Bool
  deriving DecidableEq

/-- The dump of the default `ResVersion()`. -/
def defaultResVersionDump : Json :=
  .obj [("resources", .arr []), ("configs", .str ""), ("res_version", .str ""),
        ("patch_index_path", .str ""), ("domain", .str "")]

/-- `fetch_all_configs`: launcher first, then engine, network, game, then
res (behind the parameter chain); **any** `None` aborts the whole fetch,
and an unresolved parameter chain degrades `res_version` to the default
dump. -/
def fetch_all_configs (o : FetchOracle) : Option RemoteConfigRemoteData :=
  match o.launcher_version with
  | none => none
  | some l =>
    match o.engine_config with
    | none => none
    | some e =>
      match o.network_config with
      | none => none
      | some n =>
        match o.game_config with
        | none => none
        | some g =>
          if o.fetch_params then
            match o.res_version with
            | none => none
            | some r => some ⟨n, r, e, l, g⟩
          else some ⟨n, defaultResVersionDump, e, l, g⟩

/-- `_get_latest_data_from_storage` (model instances are stored dumped, so
the `BaseModel` branch is the identity here). -/
def getLatestDataFromStorage (s : RemoteConfigDataWithUUID) : Json :=
  if !s.data.isEmpty && ukeyMem s.data s.last_uuid then
    match ulookup s.data s.last_uuid with
    | some e => e.data
    | none => .obj []
  else .obj []

/-- `parse_config_data` on a `RemoteConfigRemoteData`. -/
def parseRemoteData (d : RemoteConfigRemoteData) : Json :=
  .obj [("network_config", d.network_config), ("res_version", d.res_version),
        ("engine_config", d.engine_config), ("launcher_version", d.launcher_version),
        ("game_config", d.game_config)]

/-- `parse_config_data` on a `PlatformLocalConfig`. -/
def parseLocalData (p : PlatformLocalConfig) : Json :=
  .obj [("network_config", getLatestDataFromStorage p.network_config),
        ("res_version", getLatestDataFromStorage p.res_version),
        ("engine_config", getLatestDataFromStorage p.engine_config),
        ("launcher_version", getLatestDataFromStorage p.launcher_version),
        ("game_config", getLatestDataFromStorage p.game_config)]

/-! `save_config`: ensure the platform slot exists, update the five kinds
(in source order network, res, engine, launcher, game — `u1..u5` are the
`uuid4()` results those calls would mint), write back. -/

/-- The platform table after `storage.platforms[platform] = empty` when
the platform is absent. -/
def savePlatforms0 (storage : RemoteConfigLocalStorage) (platform : Platform) :
    List (Platform × PlatformLocalConfig) :=
  if (glookup storage.platforms platform).isSome then storage.platforms
  else ainsert storage.platforms platform createEmptyPlatformConfig

/-- The platform slot the five updates read (present by construction). -/
def savePC (storage : RemoteConfigLocalStorage) (platform : Platform) : PlatformLocalConfig :=
  (glookup (savePlatforms0 storage platform) platform).getD createEmptyPlatformConfig

def save_config (now : String) (u1 u2 u3 u4 u5 : Nat) (storage : RemoteConfigLocalStorage)
    (d : RemoteConfigRemoteData) (platform : Platform) :
    Except String RemoteConfigLocalStorage := do
  let nc ← updateConfigTypeStorage now u1 (savePC storage platform).network_config
    d.network_config
  let rv ← updateConfigTypeStorage now u2 (savePC storage platform).res_version d.res_version
  let ec ← updateConfigTypeStorage now u3 (savePC storage platform).engine_config
    d.engine_config
  let lv ← updateConfigTypeStorage now u4 (savePC storage platform).launcher_version
    d.launcher_version
  let gc ← updateConfigTypeStorage now u5 (savePC storage platform).game_config d.game_config
  pure { storage with
    platforms := ainsert (savePlatforms0 storage platform) platform ⟨nc, rv, ec, gc, lv⟩ }

/-- `check_single_config`: fetch failure returns an empty non-update and
leaves the storage untouched; otherwise diff the parsed old/new platform
dicts (normalization errors propagate) and persist. -/
def check_single_config (o : FetchOracle) (now : String) (u1 u2 u3 u4 u5 : Nat)
    (storage : RemoteConfigLocalStorage) (platform : Platform) :
    Except String (ConfigUpdate × Bool × RemoteConfigLocalStorage) :=
  match fetch_all_configs o with
  | none => .ok (⟨.obj [], .obj [], false⟩, false, storage)
  | some d => do
    let a ← normJson (parseLocalData
      ((glookup storage.platforms platform).getD createEmptyPlatformConfig))
    let b ← normJson (parseRemoteData d)
    let s2 ← save_config now u1 u2 u3 u4 u5 storage d platform
    pure (⟨parseLocalData ((glookup storage.platforms platform).getD createEmptyPlatformConfig),
      parseRemoteData d, !pyEq a b⟩, (glookup storage.platforms platform).isNone, s2)

def jDictGet (j : Json) (k : String) (dflt : Json) : Json :=
  match j with
  | .obj kvs => (alookup kvs k).getD dflt
  | _ => dflt

/-- `_create_config_update`. -/
def createConfigUpdate (result : ConfigUpdate) (key : String) :
    Except String ConfigUpdate := do
  let old_data := jDictGet result.old key (.obj [])
  let new_data := jDictGet result.new key (.obj [])
  let a ← normJson old_data
  let b ← normJson new_data
  pure ⟨old_data, new_data, !pyEq a b⟩

/-- `check_platform_updates`. -/
def check_platform_updates (o : FetchOracle) (now : String) (u1 u2 u3 u4 u5 : Nat)
    (storage : RemoteConfigLocalStorage) (platform : Platform) :
    Except String (UpdateCheckResult × RemoteConfigLocalStorage) := do
  let (result, is_first_init, s2) ← check_single_config o now u1 u2 u3 u4 u5 storage platform
  let nc ← createConfigUpdate result "network_config"
  let gc ← createConfigUpdate result "game_config"
  let rv ← createConfigUpdate result "res_version"
  let ec ← createConfigUpdate result "engine_config"
  let lv ← createConfigUpdate result "launcher_version"
  pure (⟨nc, gc, rv, ec, lv, platform, is_first_init⟩, s2)

/-- `NotificationManager.has_any_update`. -/
def has_any_update (r : UpdateCheckResult) : Bool :=
  r.network_config.updated || r.game_config.updated || r.res_version.updated ||
    r.engine_config.updated || r.launcher_version.updated

/-- The per-platform filter of the scheduled `check_remote_config_updates`
job: a platform's result enters `results` (and can yield notifications)
iff it is not the first initialization and has some update. -/
def tickCollect (r : UpdateCheckResult) : Bool :=
  !r.is_first_init && has_any_update r

/-! ### C1/C3 support lemmas -/

theorem normJson_ne_null : ∀ {x y : Json}, normJson x = .ok y → x ≠ Json.null →
    y ≠ Json.null := by
  intro x y h hx
  cases x with
  | null => exact absurd rfl hx
  | bool b =>
    have h2 : (Except.ok (Json.bool b) : Except String Json) = .ok y := h
    injection h2 with h3
    subst h3
    simp
  | num n =>
    have h2 : (Except.ok (Json.num n) : Except String Json) = .ok y := h
    injection h2 with h3
    subst h3
    simp
  | str s =>
    cases hpre : (pyStartsWith s.data httpHead || pyStartsWith s.data httpsHead) with
    | false =>
      rw [normJson_str_neg s hpre] at h
      injection h with h3
      subst h3
      simp
    | true =>
      rw [normJson_str_pos s hpre] at h
      cases hs : stripUrlQueryParamsL s.data with
      | error e =>
        rw [hs] at h
        cases h
      | ok t =>
        rw [hs] at h
        have h2 : (Except.ok (Json.str (String.mk t)) : Except String Json) = .ok y := h
        injection h2 with h3
        subst h3
        simp
  | arr xs =>
    rw [normJson_arr_eq] at h
    cases hxs : normArr xs with
    | error e =>
      rw [hxs] at h
      cases h
    | ok vs =>
      rw [hxs] at h
      have h2 : (Except.ok (Json.arr vs) : Except String Json) = .ok y := h
      injection h2 with h3
      subst h3
      simp
  | obj kvs =>
    rw [normJson_obj_eq] at h
    cases hkvs : normObj kvs with
    | error e =>
      rw [hkvs] at h
      cases h
    | ok vs =>
      rw [hkvs] at h
      have h2 : (Except.ok (Json.obj vs) : Except String Json) = .ok y := h
      injection h2 with h3
      subst h3
      simp

/-- Python `None == y` is `False` for every non-`None` JSON value. -/
theorem pyEq_null_left (y : Json) (hy : y ≠ Json.null) : pyEq .null y = false := by
  have h1 : jsize Json.null + jsize y = jsize y + 1 := by
    simp [jsize]
    omega
  unfold pyEq
  rw [h1]
  cases y with
  | null => exact absurd rfl hy
  | bool b => rfl
  | num n => rfl
  | str s => rfl
  | arr xs => rfl
  | obj kvs => rfl

/-- Oracle for a cycle in which only the `game_config` fetch fails. -/
def c3Oracle : FetchOracle :=
  ⟨some (.obj [("version", .str "1.0")]), some (.obj [("Version", .num 1)]),
   some (.obj [("u8root", .str "r")]), none, some (.obj [("res_version", .str "v")]), true⟩

def c3EmptyStorage : RemoteConfigLocalStorage := ⟨"2.0", []⟩

def c3NoChange : ConfigUpdate := ⟨.obj [], .obj [], false⟩

/-- C3: counterexample.  With every fetch succeeding except `game_config`,
the whole `fetch_all_configs` returns `None` and the tick for the platform
does nothing at all: `check_platform_updates` reports no update for any of
the five kinds and returns the storage unchanged — the four healthy kinds
are neither checked nor persisted, contradicting the claimed
skip-only-that-kind behaviour. -/
theorem c3_claim_counterexample :
    fetch_all_configs c3Oracle = none ∧
    check_platform_updates c3Oracle "T" 1 2 3 4 5 c3EmptyStorage .windows =
      .ok (⟨c3NoChange, c3NoChange, c3NoChange, c3NoChange, c3NoChange, .windows, false⟩,
        c3EmptyStorage) := by
  exact ⟨rfl, rfl⟩

/-- C3 (amended): a `None` from **any** single kind — launcher, engine,
network, game, or (when the parameter chain resolved) res — aborts the
whole platform fetch, and `check_single_config` then returns an empty
non-update with the storage untouched, so nothing is diffed or persisted
for that platform this cycle; when all four plain fetches succeed but the
dependent-parameter chain does not resolve, the fetch still succeeds with
`res_version` degraded to the default `ResVersion()` dump while the other
four kinds carry their fetched values. -/
theorem c3_fetch_failure_scope (o : FetchOracle) :
    ((o.launcher_version = none ∨ o.engine_config = none ∨ o.network_config = none ∨
        o.game_config = none ∨ (o.fetch_params = true ∧ o.res_version = none)) →
      fetch_all_configs o = none ∧
      (∀ now u1 u2 u3 u4 u5 storage platform,
        check_single_config o now u1 u2 u3 u4 u5 storage platform =
          .ok (⟨.obj [], .obj [], false⟩, false, storage))) ∧
    (∀ l e n g, o.launcher_version = some l → o.engine_config = some e →
      o.network_config = some n → o.game_config = some g → o.fetch_params = false →
      fetch_all_configs o = some ⟨n, defaultResVersionDump, e, l, g⟩) := by
  constructor
  · intro hfail
    have hfetch : fetch_all_configs o = none := by
      unfold fetch_all_configs
      rcases hfail with h | h | h | h | ⟨hp, h⟩
      · rw [h]
      · rcases h1 : o.launcher_version with _ | l
        · rfl
        · rw [h]
      · rcases h1 : o.launcher_version with _ | l
        · rfl
        · rcases h2 : o.engine_config with _ | e
          · rfl
          · rw [h]
      · rcases h1 : o.launcher_version with _ | l
        · rfl
        · rcases h2 : o.engine_config with _ | e
          · rfl
          · rcases h3 : o.network_config with _ | n
            · rfl
            · rw [h]
      · rcases h1 : o.launcher_version with _ | l
        · rfl
        · rcases h2 : o.engine_config with _ | e
          · rfl
          · rcases h3 : o.network_config with _ | n
            · rfl
            · rcases h4 : o.game_config with _ | g
              · rfl
              · simp [hp, h]
    refine ⟨hfetch, ?_⟩
    intro now u1 u2 u3 u4 u5 storage platform
    unfold check_single_config
    rw [hfetch]
  · intro l e n g h1 h2 h3 h4 hp
    unfold fetch_all_configs
    simp [h1, h2, h3, h4, hp]

/-- Oracle with all plain fetches succeeding but no resolved parameters. -/
def c3OracleNoParams : FetchOracle :=
  ⟨some (.obj [("version", .str "1.0")]), some (.obj [("Version", .num 1)]),
   some (.obj [("u8root", .str "r")]), some (.obj [("k", .num 2)]), none, false⟩

theorem c3_fetch_failure_scope_witness :
    fetch_all_configs c3Oracle = none ∧
    check_single_config c3Oracle "T" 1 2 3 4 5 c3EmptyStorage .windows =
      .ok (⟨.obj [], .obj [], false⟩, false, c3EmptyStorage) ∧
    fetch_all_configs c3OracleNoParams =
      some ⟨.obj [("u8root", .str "r")], defaultResVersionDump, .obj [("Version", .num 1)],
        .obj [("version", .str "1.0")], .obj [("k", .num 2)]⟩ :=
  ⟨((c3_fetch_failure_scope c3Oracle).1 (Or.inr (Or.inr (Or.inr (Or.inl rfl))))).1,
   ((c3_fetch_failure_scope c3Oracle).1 (Or.inr (Or.inr (Or.inr (Or.inl rfl))))).2
     "T" 1 2 3 4 5 c3EmptyStorage .windows,
   (c3_fetch_failure_scope c3OracleNoParams).2 _ _ _ _ rfl rfl rfl rfl rfl⟩

theorem glookup_none_any {κ α : Type} [BEq κ] (l : List (κ × α)) (k : κ)
    (h : glookup l k = none) : (l.any fun kv => kv.1 == k) = false := by
  induction l with
  | nil => rfl
  | cons x xs ih =>
    unfold glookup at h
    by_cases hx : (x.1 == k) = true
    · rw [if_pos hx] at h
      cases h
    · rw [if_neg hx] at h
      have hx2 : (x.1 == k) = false := by simpa using hx
      simp [List.any_cons, hx2, ih h]

theorem ainsert_absent {κ α : Type} [BEq κ] (l : List (κ × α)) (k : κ) (v : α)
    (h : (l.any fun kv => kv.1 == k) = false) : ainsert l k v = l ++ [(k, v)] := by
  simp [ainsert, h]

theorem glookup_append_new {κ α : Type} [BEq κ] [LawfulBEq κ] (l : List (κ × α)) (k : κ)
    (v : α) (h : (l.any fun kv => kv.1 == k) = false) :
    glookup (l ++ [(k, v)]) k = some v := by
  induction l with
  | nil => simp [glookup]
  | cons x xs ih =>
    simp only [List.any_cons] at h
    obtain ⟨hx, hxs⟩ := Bool.or_eq_false_iff.mp h
    rw [List.cons_append]
    show glookup (x :: (xs ++ [(k, v)])) k = some v
    simp only [glookup]
    rw [if_neg (by simp [hx])]
    exact ih hxs

theorem ainsert_append_last {κ α : Type} [BEq κ] [LawfulBEq κ] (M : List (κ × α)) (k : κ)
    (v w : α) (h : (M.any fun kv => kv.1 == k) = false) :
    ainsert (M ++ [(k, v)]) k w = M ++ [(k, w)] := by
  unfold ainsert
  have hany : ((M ++ [(k, v)]).any fun kv => kv.1 == k) = true := by
    simp [List.any_append]
  rw [if_pos hany, List.map_append]
  have hid : ∀ kv ∈ M, (if (kv.1 == k) = true then (kv.1, w) else kv) = id kv := by
    intro kv hkv
    refine if_neg ?_
    intro hc
    have hT : (M.any fun p => p.1 == k) = true := List.any_eq_true.mpr ⟨kv, hkv, hc⟩
    rw [h] at hT
    cases hT
  have hlast :
      List.map (fun kv => if (kv.1 == k) = true then (kv.1, w) else kv) [(k, v)] = [(k, w)] := by
    simp
  rw [List.map_congr_left hid, List.map_id, hlast]

theorem normObj_cons_ok {k : String} {v : Json} {rest : List (String × Json)}
    {out : List (String × Json)} (h : normObj ((k, v) :: rest) = .ok out) :
    ∃ v2 rest2, normJson v = .ok v2 ∧ normObj rest = .ok rest2 ∧ out = (k, v2) :: rest2 := by
  unfold normObj at h
  cases hv : normJson v with
  | error e =>
    rw [hv] at h
    cases h
  | ok v2 =>
    rw [hv] at h
    cases hr : normObj rest with
    | error e =>
      rw [hr] at h
      cases h
    | ok rest2 =>
      rw [hr] at h
      have h2 : (Except.ok ((k, v2) :: rest2) : Except String (List (String × Json))) =
          .ok out := h
      injection h2 with h3
      exact ⟨v2, rest2, rfl, rfl, h3.symm⟩

theorem check_single_config_some (o : FetchOracle) (now : String) (u1 u2 u3 u4 u5 : Nat)
    (storage : RemoteConfigLocalStorage) (platform : Platform) (d : RemoteConfigRemoteData)
    (hf : fetch_all_configs o = some d) :
    check_single_config o now u1 u2 u3 u4 u5 storage platform =
      (normJson (parseLocalData ((glookup storage.platforms platform).getD
          createEmptyPlatformConfig)) >>= fun a =>
        normJson (parseRemoteData d) >>= fun b =>
        save_config now u1 u2 u3 u4 u5 storage d platform >>= fun s2b =>
        Except.ok (⟨parseLocalData ((glookup storage.platforms platform).getD
            createEmptyPlatformConfig), parseRemoteData d, !pyEq a b⟩,
          (glookup storage.platforms platform).isNone, s2b)) := by
  unfold check_single_config
  rw [hf]
  exact rfl

theorem check_single_config_first_init (o : FetchOracle) (now : String)
    (u1 u2 u3 u4 u5 : Nat) (storage : RemoteConfigLocalStorage) (platform : Platform)
    (d : RemoteConfigRemoteData) (result : ConfigUpdate) (ifi : Bool)
    (s2 : RemoteConfigLocalStorage) (hf : fetch_all_configs o = some d)
    (h : check_single_config o now u1 u2 u3 u4 u5 storage platform = .ok (result, ifi, s2)) :
    ifi = (glookup storage.platforms platform).isNone := by
  rw [check_single_config_some o now u1 u2 u3 u4 u5 storage platform d hf] at h
  cases ha : normJson (parseLocalData ((glookup storage.platforms platform).getD
      createEmptyPlatformConfig)) with
  | error e =>
    rw [ha] at h
    have h2 : (Except.error e : Except String (ConfigUpdate × Bool × RemoteConfigLocalStorage)) =
        .ok (result, ifi, s2) := h
    cases h2
  | ok a =>
    rw [ha] at h
    cases hb : normJson (parseRemoteData d) with
    | error e =>
      rw [hb] at h
      have h2 : (Except.error e : Except String (ConfigUpdate × Bool × RemoteConfigLocalStorage)) =
          .ok (result, ifi, s2) := h
      cases h2
    | ok b =>
      rw [hb] at h
      cases hs : save_config now u1 u2 u3 u4 u5 storage d platform with
      | error e =>
        rw [hs] at h
        have h2 : (Except.error e :
            Except String (ConfigUpdate × Bool × RemoteConfigLocalStorage)) =
            .ok (result, ifi, s2) := h
        cases h2
      | ok s2c =>
        rw [hs] at h
        have h4 : (Except.ok (⟨parseLocalData ((glookup storage.platforms platform).getD
            createEmptyPlatformConfig), parseRemoteData d, !pyEq a b⟩,
            (glookup storage.platforms platform).isNone, s2c) :
            Except String (ConfigUpdate × Bool × RemoteConfigLocalStorage)) =
            .ok (result, ifi, s2) := h
        injection h4 with h5
        have h6 : (glookup storage.platforms platform).isNone = ifi :=
          congrArg (fun t : ConfigUpdate × Bool × RemoteConfigLocalStorage => t.2.1) h5
        exact h6.symm

theorem check_platform_updates_shape (o : FetchOracle) (now : String)
    (u1 u2 u3 u4 u5 : Nat) (storage : RemoteConfigLocalStorage) (platform : Platform)
    (r : UpdateCheckResult) (s2 : RemoteConfigLocalStorage)
    (hrun : check_platform_updates o now u1 u2 u3 u4 u5 storage platform = .ok (r, s2)) :
    ∃ result, check_single_config o now u1 u2 u3 u4 u5 storage platform =
      .ok (result, r.is_first_init, s2) := by
  unfold check_platform_updates at hrun
  cases hcs : check_single_config o now u1 u2 u3 u4 u5 storage platform with
  | error e =>
    rw [hcs] at hrun
    have h2 : (Except.error e : Except String (UpdateCheckResult × RemoteConfigLocalStorage)) =
        .ok (r, s2) := hrun
    cases h2
  | ok trip =>
    obtain ⟨result, ifi, s2c⟩ := trip
    rw [hcs] at hrun
    have h1 : (createConfigUpdate result "network_config" >>= fun nc =>
        createConfigUpdate result "game_config" >>= fun gc =>
        createConfigUpdate result "res_version" >>= fun rv =>
        createConfigUpdate result "engine_config" >>= fun ec =>
        createConfigUpdate result "launcher_version" >>= fun lv =>
        Except.ok (⟨nc, gc, rv, ec, lv, platform, ifi⟩, s2c)) = .ok (r, s2) := hrun
    cases h2 : createConfigUpdate result "network_config" with
    | error e =>
      rw [h2] at h1
      have h3 : (Except.error e : Except String (UpdateCheckResult × RemoteConfigLocalStorage)) =
          .ok (r, s2) := h1
      cases h3
    | ok nc =>
    rw [h2] at h1
    cases h3 : createConfigUpdate result "game_config" with
    | error e =>
      rw [h3] at h1
      have h4 : (Except.error e : Except String (UpdateCheckResult × RemoteConfigLocalStorage)) =
          .ok (r, s2) := h1
      cases h4
    | ok gc =>
    rw [h3] at h1
    cases h4 : createConfigUpdate result "res_version" with
    | error e =>
      rw [h4] at h1
      have h5 : (Except.error e : Except String (UpdateCheckResult × RemoteConfigLocalStorage)) =
          .ok (r, s2) := h1
      cases h5
    | ok rv =>
    rw [h4] at h1
    cases h5 : createConfigUpdate result "engine_config" with
    | error e =>
      rw [h5] at h1
      have h6 : (Except.error e : Except String (UpdateCheckResult × RemoteConfigLocalStorage)) =
          .ok (r, s2) := h1
      cases h6
    | ok ec =>
    rw [h5] at h1
    cases h6 : createConfigUpdate result "launcher_version" with
    | error e =>
      rw [h6] at h1
      have h7 : (Except.error e : Except String (UpdateCheckResult × RemoteConfigLocalStorage)) =
          .ok (r, s2) := h1
      cases h7
    | ok lv =>
    rw [h6] at h1
    have h7 : (Except.ok (⟨nc, gc, rv, ec, lv, platform, ifi⟩, s2c) :
        Except String (UpdateCheckResult × RemoteConfigLocalStorage)) = .ok (r, s2) := h1
    injection h7 with h8
    have hr : (⟨nc, gc, rv, ec, lv, platform, ifi⟩ : UpdateCheckResult) = r :=
      congrArg Prod.fst h8
    have hs2 : s2c = s2 :=
      congrArg (fun t : UpdateCheckResult × RemoteConfigLocalStorage => t.snd) h8
    subst hs2
    refine ⟨result, ?_⟩
    have hifi : r.is_first_init = ifi := by rw [← hr]
    rw [hifi]

/-- The five singleton histories written on a platform's first save. -/
def baselineStores (now : String) (u1 u2 u3 u4 u5 : Nat) (d : RemoteConfigRemoteData) :
    PlatformLocalConfig :=
  ⟨⟨[(u1, ⟨d.network_config, now⟩)], now, u1⟩,
   ⟨[(u2, ⟨d.res_version, now⟩)], now, u2⟩,
   ⟨[(u3, ⟨d.engine_config, now⟩)], now, u3⟩,
   ⟨[(u5, ⟨d.game_config, now⟩)], now, u5⟩,
   ⟨[(u4, ⟨d.launcher_version, now⟩)], now, u4⟩⟩

/-- C1: first-tick suppression.  Given a successful fetch (whose per-kind
values are never Python `None`, hypothesis `hnn` — the fetcher aborts on
`None`), a completed `check_platform_updates` reports
`is_first_init` exactly when the platform had no prior persisted history
(1); the scheduled tick collects a platform for notification exactly when
it is not first-init and has some update (2), so a platform with prior
history is never suppressed this way (3); and on the first-ever tick the
platform is not collected — zero notifications — while baseline entries
for all five config kinds are persisted under the five fresh uuids (4). -/
theorem c1_first_tick_suppression (o : FetchOracle) (now : String) (u1 u2 u3 u4 u5 : Nat)
    (storage : RemoteConfigLocalStorage) (platform : Platform) (d : RemoteConfigRemoteData)
    (r : UpdateCheckResult) (s2 : RemoteConfigLocalStorage)
    (hfetch : fetch_all_configs o = some d)
    (hnn : d.network_config ≠ Json.null ∧ d.res_version ≠ Json.null ∧
      d.engine_config ≠ Json.null ∧ d.launcher_version ≠ Json.null ∧
      d.game_config ≠ Json.null)
    (hrun : check_platform_updates o now u1 u2 u3 u4 u5 storage platform = .ok (r, s2)) :
    r.is_first_init = (glookup storage.platforms platform).isNone ∧
    tickCollect r = (!r.is_first_init && has_any_update r) ∧
    ((glookup storage.platforms platform).isSome = true →
      tickCollect r = has_any_update r) ∧
    (glookup storage.platforms platform = none →
      tickCollect r = false ∧
      glookup s2.platforms platform = some (baselineStores now u1 u2 u3 u4 u5 d)) := by
  obtain ⟨result, hcs⟩ :=
    check_platform_updates_shape o now u1 u2 u3 u4 u5 storage platform r s2 hrun
  have hifi : r.is_first_init = (glookup storage.platforms platform).isNone :=
    check_single_config_first_init o now u1 u2 u3 u4 u5 storage platform d result
      r.is_first_init s2 hfetch hcs
  refine ⟨hifi, rfl, ?_, ?_⟩
  · intro hsome
    rcases hg : glookup storage.platforms platform with _ | pc
    · rw [hg] at hsome
      simp at hsome
    · have hfalse : r.is_first_init = false := by
        rw [hifi, hg]
        rfl
      simp [tickCollect, hfalse]
  · intro hnone
    have hifiT : r.is_first_init = true := by
      rw [hifi, hnone]
      rfl
    have htc : tickCollect r = false := by simp [tickCollect, hifiT]
    refine ⟨htc, ?_⟩
    have hM : (storage.platforms.any fun kv => kv.1 == platform) = false :=
      glookup_none_any storage.platforms platform hnone
    have hp0 : savePlatforms0 storage platform =
        storage.platforms ++ [(platform, createEmptyPlatformConfig)] := by
      unfold savePlatforms0
      rw [hnone, ainsert_absent storage.platforms platform createEmptyPlatformConfig hM]
      rfl
    have hpc : savePC storage platform = createEmptyPlatformConfig := by
      unfold savePC
      rw [hp0, glookup_append_new storage.platforms platform createEmptyPlatformConfig hM]
      rfl
    have ha : normJson (parseLocalData ((glookup storage.platforms platform).getD
        createEmptyPlatformConfig)) = .ok (parseLocalData createEmptyPlatformConfig) := by
      rw [hnone]
      exact rfl
    cases hb : normJson (parseRemoteData d) with
    | error e =>
      exfalso
      rw [check_single_config_some o now u1 u2 u3 u4 u5 storage platform d hfetch,
        ha, hb] at hcs
      have h2 : (Except.error e :
          Except String (ConfigUpdate × Bool × RemoteConfigLocalStorage)) =
          .ok (result, r.is_first_init, s2) := hcs
      cases h2
    | ok b =>
    have hb2 := hb
    rw [show parseRemoteData d = Json.obj [("network_config", d.network_config),
      ("res_version", d.res_version), ("engine_config", d.engine_config),
      ("launcher_version", d.launcher_version), ("game_config", d.game_config)] from rfl,
      normJson_obj_eq] at hb2
    cases hobj : normObj [("network_config", d.network_config),
      ("res_version", d.res_version), ("engine_config", d.engine_config),
      ("launcher_version", d.launcher_version), ("game_config", d.game_config)] with
    | error e =>
      exfalso
      rw [hobj] at hb2
      have h2 : (Except.error e : Except String Json) = .ok b := hb2
      cases h2
    | ok vs =>
    obtain ⟨v1, rest1, hv1, hobj1, _⟩ := normObj_cons_ok hobj
    obtain ⟨v2, rest2, hv2, hobj2, _⟩ := normObj_cons_ok hobj1
    obtain ⟨v3, rest3, hv3, hobj3, _⟩ := normObj_cons_ok hobj2
    obtain ⟨v4, rest4, hv4, hobj4, _⟩ := normObj_cons_ok hobj3
    obtain ⟨v5, rest5, hv5, hobj5, _⟩ := normObj_cons_ok hobj4
    obtain ⟨hn1, hn2, hn3, hn4, hn5⟩ := hnn
    have hp1 : pyEq Json.null v1 = false := pyEq_null_left v1 (normJson_ne_null hv1 hn1)
    have hp2 : pyEq Json.null v2 = false := pyEq_null_left v2 (normJson_ne_null hv2 hn2)
    have hp3 : pyEq Json.null v3 = false := pyEq_null_left v3 (normJson_ne_null hv3 hn3)
    have hp4 : pyEq Json.null v4 = false := pyEq_null_left v4 (normJson_ne_null hv4 hn4)
    have hp5 : pyEq Json.null v5 = false := pyEq_null_left v5 (normJson_ne_null hv5 hn5)
    have hu1 : updateConfigTypeStorage now u1 (savePC storage platform).network_config
        d.network_config = .ok ⟨[(u1, ⟨d.network_config, now⟩)], now, u1⟩ := by
      rw [hpc, updateCTS_eval now u1 createEmptyPlatformConfig.network_config
        d.network_config Json.null v1 rfl hv1, hp1]
      simp [ainsert, createEmptyPlatformConfig]
    have hu2 : updateConfigTypeStorage now u2 (savePC storage platform).res_version
        d.res_version = .ok ⟨[(u2, ⟨d.res_version, now⟩)], now, u2⟩ := by
      rw [hpc, updateCTS_eval now u2 createEmptyPlatformConfig.res_version
        d.res_version Json.null v2 rfl hv2, hp2]
      simp [ainsert, createEmptyPlatformConfig]
    have hu3 : updateConfigTypeStorage now u3 (savePC storage platform).engine_config
        d.engine_config = .ok ⟨[(u3, ⟨d.engine_config, now⟩)], now, u3⟩ := by
      rw [hpc, updateCTS_eval now u3 createEmptyPlatformConfig.engine_config
        d.engine_config Json.null v3 rfl hv3, hp3]
      simp [ainsert, createEmptyPlatformConfig]
    have hu4 : updateConfigTypeStorage now u4 (savePC storage platform).launcher_version
        d.launcher_version = .ok ⟨[(u4, ⟨d.launcher_version, now⟩)], now, u4⟩ := by
      rw [hpc, updateCTS_eval now u4 createEmptyPlatformConfig.launcher_version
        d.launcher_version Json.null v4 rfl hv4, hp4]
      simp [ainsert, createEmptyPlatformConfig]
    have hu5 : updateConfigTypeStorage now u5 (savePC storage platform).game_config
        d.game_config = .ok ⟨[(u5, ⟨d.game_config, now⟩)], now, u5⟩ := by
      rw [hpc, updateCTS_eval now u5 createEmptyPlatformConfig.game_config
        d.game_config Json.null v5 rfl hv5, hp5]
      simp [ainsert, createEmptyPlatformConfig]
    have hsave : save_config now u1 u2 u3 u4 u5 storage d platform =
        .ok { storage with
          platforms := ainsert (savePlatforms0 storage platform) platform
            (baselineStores now u1 u2 u3 u4 u5 d) } := by
      unfold save_config
      rw [hu1, hu2, hu3, hu4, hu5]
      exact rfl
    rw [check_single_config_some o now u1 u2 u3 u4 u5 storage platform d hfetch,
      ha, hb, hsave] at hcs
    have h4 : (Except.ok (⟨parseLocalData ((glookup storage.platforms platform).getD
        createEmptyPlatformConfig), parseRemoteData d,
        !pyEq (parseLocalData createEmptyPlatformConfig) b⟩,
        (glookup storage.platforms platform).isNone,
        { storage with
          platforms := ainsert (savePlatforms0 storage platform) platform
            (baselineStores now u1 u2 u3 u4 u5 d) }) :
        Except String (ConfigUpdate × Bool × RemoteConfigLocalStorage)) =
        .ok (result, r.is_first_init, s2) := hcs
    injection h4 with h5
    have hs2 : ({ storage with
        platforms := ainsert (savePlatforms0 storage platform) platform
          (baselineStores now u1 u2 u3 u4 u5 d) } : RemoteConfigLocalStorage) = s2 :=
      congrArg (fun t : ConfigUpdate × Bool × RemoteConfigLocalStorage => t.2.2) h5
    rw [← hs2]
    show glookup (ainsert (savePlatforms0 storage platform) platform
      (baselineStores now u1 u2 u3 u4 u5 d)) platform =
      some (baselineStores now u1 u2 u3 u4 u5 d)
    rw [hp0, ainsert_append_last storage.platforms platform createEmptyPlatformConfig _ hM]
    exact glookup_append_new storage.platforms platform _ hM

def c1Oracle : FetchOracle :=
  ⟨some (.obj [("version", .str "1.0")]), some (.obj [("Version", .num 1)]),
   some (.obj [("u8root", .str "x")]), some (.obj [("k", .num 7)]),
   some (.obj [("res_version", .str "v")]), true⟩

def c1Storage : RemoteConfigLocalStorage := ⟨"2.0", []⟩

def c1d : RemoteConfigRemoteData :=
  ⟨.obj [("u8root", .str "x")], .obj [("res_version", .str "v")], .obj [("Version", .num 1)],
   .obj [("version", .str "1.0")], .obj [("k", .num 7)]⟩

def c1r : UpdateCheckResult :=
  ⟨⟨.obj [], .obj [("u8root", .str "x")], true⟩,
   ⟨.obj [], .obj [("k", .num 7)], true⟩,
   ⟨.obj [], .obj [("res_version", .str "v")], true⟩,
   ⟨.obj [], .obj [("Version", .num 1)], true⟩,
   ⟨.obj [], .obj [("version", .str "1.0")], true⟩,
   .windows, true⟩

def c1s2 : RemoteConfigLocalStorage :=
  ⟨"2.0", [(.windows,
    ⟨⟨[(1, ⟨.obj [("u8root", .str "x")], "T"⟩)], "T", 1⟩,
     ⟨[(2, ⟨.obj [("res_version", .str "v")], "T"⟩)], "T", 2⟩,
     ⟨[(3, ⟨.obj [("Version", .num 1)], "T"⟩)], "T", 3⟩,
     ⟨[(5, ⟨.obj [("k", .num 7)], "T"⟩)], "T", 5⟩,
     ⟨[(4, ⟨.obj [("version", .str "1.0")], "T"⟩)], "T", 4⟩⟩)]⟩

theorem c1_first_tick_suppression_witness :
    c1r.is_first_init = (glookup c1Storage.platforms Platform.windows).isNone ∧
    tickCollect c1r = (!c1r.is_first_init && has_any_update c1r) ∧
    ((glookup c1Storage.platforms Platform.windows).isSome = true →
      tickCollect c1r = has_any_update c1r) ∧
    (glookup c1Storage.platforms Platform.windows = none →
      tickCollect c1r = false ∧
      glookup c1s2.platforms Platform.windows = some (baselineStores "T" 1 2 3 4 5 c1d)) :=
  c1_first_tick_suppression c1Oracle "T" 1 2 3 4 5 c1Storage .windows c1d c1r c1s2 rfl
    (by exact ⟨by decide, by decide, by decide, by decide, by decide⟩) rfl
